import Mathlib

/-!
Verification development for the tracemyride route-generation backend.

The Python sources under `backend/app` are shallowly embedded below:
pure functions become Lean functions over `ℝ`, the stateful iteration
loops become explicit recursion, HTTP calls become oracle parameters,
and a Python exception escaping a function is modelled with `Except`.
-/

open Real RealInnerProductSpace

noncomputable section

namespace TraceMyRide

/-- A coordinate as stored in route polylines: a `[lng, lat]` pair
(`app/services/route_generator.py` comments document this order). -/
abbrev Pt : Type := ℝ × ℝ

/-- Python `math.radians`. -/
def radians (x : ℝ) : ℝ := x * (π / 180)

/-- Python `math.degrees`. -/
def degrees (x : ℝ) : ℝ := x * (180 / π)

/-- Python `math.atan2 y x`, embedded as the argument of the complex
number `x + y·i` (both have range `(-π, π]` and send `(0,0)` to `0`). -/
def atan2 (y x : ℝ) : ℝ := Complex.arg ⟨x, y⟩

/-- Python `%` on reals (sign follows the divisor, here only used with
positive divisor): `x - y·⌊x/y⌋`. -/
def pymod (x y : ℝ) : ℝ := x - y * ⌊x / y⌋

/-- `EARTH_RADIUS_KM` from `app/utils/geo.py`. -/
def EARTH_RADIUS_KM : ℝ := 6371

/-- `haversine` from `app/utils/geo.py`: great-circle distance in km
between `(lat1, lng1)` and `(lat2, lng2)` given in degrees. -/
def haversine (lat1 lng1 lat2 lng2 : ℝ) : ℝ :=
  let lat1r := radians lat1
  let lng1r := radians lng1
  let lat2r := radians lat2
  let lng2r := radians lng2
  let dlat := lat2r - lat1r
  let dlng := lng2r - lng1r
  let a := Real.sin (dlat / 2) ^ 2 +
    Real.cos lat1r * Real.cos lat2r * Real.sin (dlng / 2) ^ 2
  2 * EARTH_RADIUS_KM * Real.arcsin (Real.sqrt a)

/-- `destination_point` from `app/utils/geo.py`. -/
def destination_point (lat lng bearing_deg distance_km : ℝ) : ℝ × ℝ :=
  let lat_r := radians lat
  let lng_r := radians lng
  let bearing := radians bearing_deg
  let d := distance_km / EARTH_RADIUS_KM
  let lat2 := Real.arcsin
    (Real.sin lat_r * Real.cos d + Real.cos lat_r * Real.sin d * Real.cos bearing)
  let lng2 := lng_r + atan2
    (Real.sin bearing * Real.sin d * Real.cos lat_r)
    (Real.cos d - Real.sin lat_r * Real.sin lat2)
  (degrees lat2, degrees lng2)

/-- `bearing` from `app/utils/geo.py` (initial bearing in degrees). -/
def geo_bearing (lat1 lng1 lat2 lng2 : ℝ) : ℝ :=
  let lat1r := radians lat1
  let lng1r := radians lng1
  let lat2r := radians lat2
  let lng2r := radians lng2
  let dlng := lng2r - lng1r
  let x := Real.sin dlng * Real.cos lat2r
  let y := Real.cos lat1r * Real.sin lat2r -
    Real.sin lat1r * Real.cos lat2r * Real.cos dlng
  pymod (degrees (atan2 x y) + 360) 360

/-! ### Spur remover (`_remove_spurs` in `app/services/route_generator.py`) -/

/-- The proximity test `haversine(result[i][1], result[i][0],
result[j][1], result[j][0]) < threshold_km` used by the spur remover;
points are `[lng, lat]` pairs. -/
def spurNear (threshold_km : ℝ) (p q : Pt) : Bool :=
  @decide (haversine p.2 p.1 q.2 q.1 < threshold_km) (Classical.propDecidable _)

/-- One full scan of the spur remover: the first pair `(i, j)` (first in
`i`, then in `j`) with `i < len - 6`, `j ∈ [i+6, min (i + len/3) len)` and
`result[i]` within `threshold_km` of `result[j]`. -/
def findCut (threshold_km : ℝ) (res : List Pt) : Option (ℕ × ℕ) :=
  (List.range (res.length - 6)).findSome? fun i =>
    ((List.range' (i + 6) (min (i + res.length / 3) res.length - (i + 6))).find? fun j =>
      spurNear threshold_km (res.getD i (0, 0)) (res.getD j (0, 0))).map fun j => (i, j)

/-- The `while changed` loop of `_remove_spurs`: repeatedly splice out the
first detected spur (`result[: i + 1] + result[found_j:]`) and restart the
scan.  Each splice removes at least five points, so `fuel = length` always
suffices to reach the fixpoint. -/
def removeSpursLoop (threshold_km : ℝ) : ℕ → List Pt → List Pt
  | 0, res => res
  | fuel + 1, res =>
    match findCut threshold_km res with
    | none => res
    | some (i, j) => removeSpursLoop threshold_km fuel (res.take (i + 1) ++ res.drop j)

/-- `_remove_spurs(coords, threshold_m)` (the caller uses the default
`threshold_m = 30`). -/
def remove_spurs (coords : List Pt) (threshold_m : ℝ) : List Pt :=
  if coords.length < 20 then coords
  else removeSpursLoop (threshold_m / 1000) coords.length coords

/-- `_coords_distance_km` from `app/services/route_generator.py`: summed
haversine length of a `[lng, lat]` polyline. -/
def coords_distance_km : List Pt → ℝ
  | [] => 0
  | [_] => 0
  | p :: q :: rest => haversine p.2 p.1 q.2 q.1 + coords_distance_km (q :: rest)

/-! ### Structural lemmas about the spur remover -/

/-- A successful scan returns indices with `i + 6 ≤ j < res.length`. -/
theorem findCut_eq_some_bounds {threshold_km : ℝ} {res : List Pt} {i j : ℕ}
    (h : findCut threshold_km res = some (i, j)) :
    i + 6 ≤ j ∧ j < res.length := by
  obtain ⟨a, ha, hfa⟩ := List.exists_of_findSome?_eq_some h
  rcases hopt : (List.range' (a + 6) (min (a + res.length / 3) res.length - (a + 6))).find?
      (fun j => spurNear threshold_km (res.getD a (0, 0)) (res.getD j (0, 0))) with _ | j'
  · rw [hopt] at hfa; simp at hfa
  · rw [hopt] at hfa
    simp only [Option.map_some', Option.some.injEq, Prod.mk.injEq] at hfa
    obtain ⟨rfl, rfl⟩ := hfa
    have hmem := List.mem_of_find?_eq_some hopt
    rw [List.mem_range'_1] at hmem
    omega

/-- Splicing out a spur removes at least five points. -/
theorem cut_length_le {res : List Pt} {i j : ℕ} (hij : i + 6 ≤ j)
    (hj : j < res.length) :
    (res.take (i + 1) ++ res.drop j).length + 5 ≤ res.length := by
  simp only [List.length_append, List.length_take, List.length_drop]
  omega

/-- When the scan finds nothing, the loop is the identity. -/
theorem removeSpursLoop_of_none {threshold_km : ℝ} {res : List Pt}
    (h : findCut threshold_km res = none) (fuel : ℕ) :
    removeSpursLoop threshold_km fuel res = res := by
  cases fuel with
  | zero => rfl
  | succ n => simp [removeSpursLoop, h]

/-- With fuel at least the length of the list, the loop reaches a state in
which no further spur is found. -/
theorem findCut_removeSpursLoop {threshold_km : ℝ} :
    ∀ (fuel : ℕ) (res : List Pt), res.length ≤ fuel →
      findCut threshold_km (removeSpursLoop threshold_km fuel res) = none := by
  intro fuel
  induction fuel with
  | zero =>
    intro res hlen
    have : res = [] := List.length_eq_zero.mp (Nat.le_zero.mp hlen)
    subst this
    rfl
  | succ n ih =>
    intro res hlen
    rcases h : findCut threshold_km res with _ | ⟨i, j⟩
    · rw [removeSpursLoop, h]; exact h
    · rw [removeSpursLoop, h]
      obtain ⟨hij, hj⟩ := findCut_eq_some_bounds h
      exact ih _ (by have := cut_length_le hij hj; omega)

/-- `_remove_spurs` is a fixpoint after one application: the returned list
admits no further cut. -/
theorem findCut_remove_spurs (coords : List Pt) (threshold_m : ℝ)
    (h : ¬ coords.length < 20) :
    findCut (threshold_m / 1000) (remove_spurs coords threshold_m) = none := by
  rw [remove_spurs, if_neg h]
  exact findCut_removeSpursLoop coords.length coords le_rfl

/-- The spur-removal loop never lengthens the list. -/
theorem removeSpursLoop_length_le {threshold_km : ℝ} :
    ∀ (fuel : ℕ) (res : List Pt),
      (removeSpursLoop threshold_km fuel res).length ≤ res.length := by
  intro fuel
  induction fuel with
  | zero => intro res; exact le_rfl
  | succ n ih =>
    intro res
    rcases h : findCut threshold_km res with _ | ⟨i, j⟩
    · rw [removeSpursLoop, h]
    · rw [removeSpursLoop, h]
      obtain ⟨hij, hj⟩ := findCut_eq_some_bounds h
      have := cut_length_le hij hj
      exact le_trans (ih _) (by omega)

/-- Dropping fewer elements than the length preserves the last element. -/
theorem getLast?_drop_of_lt : ∀ (l : List Pt) (j : ℕ), j < l.length →
    (l.drop j).getLast? = l.getLast? := by
  intro l
  induction l with
  | nil => intro j hj; simp at hj
  | cons a t ih =>
    intro j hj
    cases j with
    | zero => rfl
    | succ m =>
      rw [List.drop_succ_cons]
      have ht : t ≠ [] := by
        intro hnil
        rw [hnil] at hj
        simp at hj
      rw [ih m (by simpa using hj)]
      cases t with
      | nil => exact absurd rfl ht
      | cons b u => rw [List.getLast?_cons_cons]

/-- Splicing a spur keeps the first point. -/
theorem cut_head? {res : List Pt} (i j : ℕ) (h : res ≠ []) :
    (res.take (i + 1) ++ res.drop j).head? = res.head? := by
  cases res with
  | nil => exact absurd rfl h
  | cons a t => rw [List.take_succ_cons]; rfl

/-- Splicing a spur keeps the last point. -/
theorem cut_getLast? {res : List Pt} (i : ℕ) {j : ℕ} (hj : j < res.length) :
    (res.take (i + 1) ++ res.drop j).getLast? = res.getLast? := by
  have hne : res.drop j ≠ [] := by
    intro hnil
    have := congrArg List.length hnil
    simp at this
    omega
  rw [List.getLast?_append_of_ne_nil _ hne, getLast?_drop_of_lt res j hj]

/-- The spur-removal loop keeps the first and last points. -/
theorem removeSpursLoop_endpoints {threshold_km : ℝ} :
    ∀ (fuel : ℕ) (res : List Pt),
      (removeSpursLoop threshold_km fuel res).head? = res.head? ∧
      (removeSpursLoop threshold_km fuel res).getLast? = res.getLast? := by
  intro fuel
  induction fuel with
  | zero => intro res; exact ⟨rfl, rfl⟩
  | succ n ih =>
    intro res
    rcases h : findCut threshold_km res with _ | ⟨i, j⟩
    · rw [removeSpursLoop, h]; exact ⟨rfl, rfl⟩
    · rw [removeSpursLoop, h]
      obtain ⟨hij, hj⟩ := findCut_eq_some_bounds h
      have hne : res ≠ [] := by
        intro hnil
        rw [hnil] at hj
        simp at hj
      obtain ⟨ih1, ih2⟩ := ih (res.take (i + 1) ++ res.drop j)
      exact ⟨ih1.trans (cut_head? i j hne), ih2.trans (cut_getLast? i hj)⟩

/-- **C5.** The spur remover is idempotent: a second application (with the
same threshold) returns its input unchanged.  The first application ends
only when a full scan finds no spur, and the scan is a deterministic
function of the list, so the second application finds none either. -/
theorem remove_spurs_idempotent (coords : List Pt) (threshold_m : ℝ) :
    remove_spurs (remove_spurs coords threshold_m) threshold_m =
      remove_spurs coords threshold_m := by
  by_cases h : coords.length < 20
  · have hin : remove_spurs coords threshold_m = coords := by
      rw [remove_spurs, if_pos h]
    rw [hin, hin]
  · have hfix := findCut_remove_spurs coords threshold_m h
    rw [remove_spurs]
    split
    · rfl
    · exact removeSpursLoop_of_none hfix _

/-- **C10.** For every coordinate list of length at least two, the spur
remover preserves the first and the last coordinate, so a closed polyline
stays closed. -/
theorem remove_spurs_endpoints (coords : List Pt) (threshold_m : ℝ)
    (_h : 2 ≤ coords.length) :
    (remove_spurs coords threshold_m).head? = coords.head? ∧
    (remove_spurs coords threshold_m).getLast? = coords.getLast? := by
  rw [remove_spurs]
  split
  · exact ⟨rfl, rfl⟩
  · exact removeSpursLoop_endpoints coords.length coords

/-- Witness for C10 at the concrete two-point polyline `[(0,0), (1,1)]`
with the default threshold `30`. -/
theorem remove_spurs_endpoints_witness :
    (remove_spurs [((0 : ℝ), (0 : ℝ)), (1, 1)] 30).head? =
        ([((0 : ℝ), (0 : ℝ)), (1, 1)] : List Pt).head? ∧
      (remove_spurs [((0 : ℝ), (0 : ℝ)), (1, 1)] 30).getLast? =
        ([((0 : ℝ), (0 : ℝ)), (1, 1)] : List Pt).getLast? :=
  remove_spurs_endpoints [((0 : ℝ), (0 : ℝ)), (1, 1)] 30 (by simp)

/-! ### Haversine is a great-circle arc length

`haversine` computes `2·R·arcsin(√a)` where `a` turns out to be a quarter
of the squared Euclidean distance between the two points mapped onto the
unit sphere.  This identifies it with `R·arccos⟪·,·⟫`, whose triangle
inequality we prove from Cauchy–Schwarz. -/

/-- The point of the unit sphere with latitude `lat` and longitude `lng`
(both in radians). -/
def sph (lat lng : ℝ) : EuclideanSpace ℝ (Fin 3) :=
  ![Real.cos lat * Real.cos lng, Real.cos lat * Real.sin lng, Real.sin lat]

theorem inner_sph (lat1 lng1 lat2 lng2 : ℝ) :
    ⟪sph lat1 lng1, sph lat2 lng2⟫ =
      Real.sin lat1 * Real.sin lat2 +
        Real.cos lat1 * Real.cos lat2 * Real.cos (lng2 - lng1) := by
  simp only [sph, PiLp.inner_apply, RCLike.inner_apply, starRingEnd_apply, star_trivial,
    Fin.sum_univ_three, Matrix.cons_val_zero, Matrix.cons_val_one, Matrix.head_cons,
    Matrix.cons_val_two, Matrix.tail_cons]
  rw [Real.cos_sub]
  ring

theorem inner_sph_self (lat lng : ℝ) : ⟪sph lat lng, sph lat lng⟫ = 1 := by
  rw [inner_sph]
  simp only [sub_self, Real.cos_zero, mul_one]
  nlinarith [Real.sin_sq_add_cos_sq lat]

theorem norm_sph (lat lng : ℝ) : ‖sph lat lng‖ = 1 := by
  have h := real_inner_self_eq_norm_sq (sph lat lng)
  rw [inner_sph_self] at h
  rw [← Real.sqrt_sq (norm_nonneg (sph lat lng)), ← h, Real.sqrt_one]

theorem sin_sq_half_sub (x : ℝ) : Real.sin (x / 2) ^ 2 = (1 - Real.cos x) / 2 := by
  rw [← sq_abs, Real.abs_sin_half, Real.sq_sqrt]
  linarith [Real.cos_le_one x]

/-- The radicand inside `haversine` is `(1 - ⟪·,·⟫)/2` for the two points
mapped onto the unit sphere. -/
theorem hav_radicand_eq (lat1 lng1 lat2 lng2 : ℝ) :
    Real.sin ((lat2 - lat1) / 2) ^ 2 +
      Real.cos lat1 * Real.cos lat2 * Real.sin ((lng2 - lng1) / 2) ^ 2 =
      (1 - ⟪sph lat1 lng1, sph lat2 lng2⟫) / 2 := by
  rw [inner_sph, sin_sq_half_sub (lat2 - lat1), sin_sq_half_sub (lng2 - lng1)]
  linear_combination (-1 / 2 : ℝ) * Real.cos_sub lat2 lat1

theorem neg_one_le_inner_sph (lat1 lng1 lat2 lng2 : ℝ) :
    -1 ≤ ⟪sph lat1 lng1, sph lat2 lng2⟫ ∧ ⟪sph lat1 lng1, sph lat2 lng2⟫ ≤ 1 := by
  have h := abs_real_inner_le_norm (sph lat1 lng1) (sph lat2 lng2)
  rw [norm_sph, norm_sph, mul_one] at h
  exact abs_le.mp h

theorem two_arcsin_sqrt (t : ℝ) (h1 : -1 ≤ t) (h2 : t ≤ 1) :
    2 * Real.arcsin (Real.sqrt ((1 - t) / 2)) = Real.arccos t := by
  have hθ0 := Real.arccos_nonneg t
  have hθπ := Real.arccos_le_pi t
  have hcos : Real.cos (Real.arccos t) = t := Real.cos_arccos h1 h2
  have hsin : Real.sin (Real.arccos t / 2) =
      Real.sqrt ((1 - Real.cos (Real.arccos t)) / 2) :=
    Real.sin_half_eq_sqrt hθ0 (by linarith [Real.pi_pos])
  rw [hcos] at hsin
  rw [← hsin, Real.arcsin_sin (by linarith [Real.pi_pos]) (by linarith)]
  ring

/-- `haversine` equals the earth radius times the angle between the two
points viewed on the unit sphere. -/
theorem haversine_eq_arc (lat1 lng1 lat2 lng2 : ℝ) :
    haversine lat1 lng1 lat2 lng2 =
      EARTH_RADIUS_KM *
        Real.arccos ⟪sph (radians lat1) (radians lng1),
          sph (radians lat2) (radians lng2)⟫ := by
  obtain ⟨hlo, hhi⟩ :=
    neg_one_le_inner_sph (radians lat1) (radians lng1) (radians lat2) (radians lng2)
  show 2 * EARTH_RADIUS_KM * Real.arcsin (Real.sqrt _) = _
  rw [hav_radicand_eq, ← two_arcsin_sqrt _ hlo hhi]
  ring

/-- Triangle inequality for the angle metric on unit vectors, from
Cauchy–Schwarz applied to the components orthogonal to the middle vector. -/
theorem arccos_inner_triangle {x y z : EuclideanSpace ℝ (Fin 3)}
    (hx : ‖x‖ = 1) (hy : ‖y‖ = 1) (hz : ‖z‖ = 1) :
    Real.arccos ⟪x, z⟫ ≤ Real.arccos ⟪x, y⟫ + Real.arccos ⟪y, z⟫ := by
  have hxx : ⟪x, x⟫ = 1 := by rw [real_inner_self_eq_norm_sq, hx]; norm_num
  have hyy : ⟪y, y⟫ = 1 := by rw [real_inner_self_eq_norm_sq, hy]; norm_num
  have hzz : ⟪z, z⟫ = 1 := by rw [real_inner_self_eq_norm_sq, hz]; norm_num
  have ha : -1 ≤ ⟪x, y⟫ ∧ ⟪x, y⟫ ≤ 1 := by
    have h := abs_real_inner_le_norm x y
    rw [hx, hy, mul_one] at h
    exact abs_le.mp h
  have hb : -1 ≤ ⟪y, z⟫ ∧ ⟪y, z⟫ ≤ 1 := by
    have h := abs_real_inner_le_norm y z
    rw [hy, hz, mul_one] at h
    exact abs_le.mp h
  have huw : ⟪x - ⟪x, y⟫ • y, z - ⟪y, z⟫ • y⟫ = ⟪x, z⟫ - ⟪x, y⟫ * ⟪y, z⟫ := by
    simp only [inner_sub_left, inner_sub_right, real_inner_smul_left,
      real_inner_smul_right, real_inner_comm y x, real_inner_comm z y,
      real_inner_comm z x, hyy]
    ring
  have hu2 : ‖x - ⟪x, y⟫ • y‖ ^ 2 = 1 - ⟪x, y⟫ ^ 2 := by
    rw [← real_inner_self_eq_norm_sq]
    simp only [inner_sub_left, inner_sub_right, real_inner_smul_left,
      real_inner_smul_right, real_inner_comm y x, hxx, hyy]
    ring
  have hw2 : ‖z - ⟪y, z⟫ • y‖ ^ 2 = 1 - ⟪y, z⟫ ^ 2 := by
    rw [← real_inner_self_eq_norm_sq]
    simp only [inner_sub_left, inner_sub_right, real_inner_smul_left,
      real_inner_smul_right, real_inner_comm z y, hzz, hyy]
    ring
  have hu : ‖x - ⟪x, y⟫ • y‖ = Real.sqrt (1 - ⟪x, y⟫ ^ 2) := by
    rw [← Real.sqrt_sq (norm_nonneg (x - ⟪x, y⟫ • y)), hu2]
  have hw : ‖z - ⟪y, z⟫ • y‖ = Real.sqrt (1 - ⟪y, z⟫ ^ 2) := by
    rw [← Real.sqrt_sq (norm_nonneg (z - ⟪y, z⟫ • y)), hw2]
  have hcs :=
    (abs_le.mp (abs_real_inner_le_norm (x - ⟪x, y⟫ • y) (z - ⟪y, z⟫ • y))).1
  rw [hu, hw, huw] at hcs
  have key : ⟪x, y⟫ * ⟪y, z⟫ -
      Real.sqrt (1 - ⟪x, y⟫ ^ 2) * Real.sqrt (1 - ⟪y, z⟫ ^ 2) ≤ ⟪x, z⟫ := by
    linarith
  rcases le_or_lt π (Real.arccos ⟪x, y⟫ + Real.arccos ⟪y, z⟫) with hp | hp
  · exact le_trans (Real.arccos_le_pi ⟪x, z⟫) hp
  · have hcosab : Real.cos (Real.arccos ⟪x, y⟫ + Real.arccos ⟪y, z⟫) =
        ⟪x, y⟫ * ⟪y, z⟫ -
          Real.sqrt (1 - ⟪x, y⟫ ^ 2) * Real.sqrt (1 - ⟪y, z⟫ ^ 2) := by
      rw [Real.cos_add, Real.cos_arccos ha.1 ha.2, Real.cos_arccos hb.1 hb.2,
        Real.sin_arccos, Real.sin_arccos]
    have hle : Real.cos (Real.arccos ⟪x, y⟫ + Real.arccos ⟪y, z⟫) ≤ ⟪x, z⟫ := by
      rw [hcosab]; exact key
    have hmono : Real.arcsin (Real.cos (Real.arccos ⟪x, y⟫ + Real.arccos ⟪y, z⟫)) ≤
        Real.arcsin ⟪x, z⟫ := Real.monotone_arcsin hle
    have hab0 : 0 ≤ Real.arccos ⟪x, y⟫ + Real.arccos ⟪y, z⟫ :=
      add_nonneg (Real.arccos_nonneg _) (Real.arccos_nonneg _)
    have hrec : Real.arccos (Real.cos (Real.arccos ⟪x, y⟫ + Real.arccos ⟪y, z⟫)) =
        Real.arccos ⟪x, y⟫ + Real.arccos ⟪y, z⟫ := Real.arccos_cos hab0 (le_of_lt hp)
    have hanti : Real.arccos ⟪x, z⟫ ≤
        Real.arccos (Real.cos (Real.arccos ⟪x, y⟫ + Real.arccos ⟪y, z⟫)) := by
      rw [Real.arccos_eq_pi_div_two_sub_arcsin, Real.arccos_eq_pi_div_two_sub_arcsin]
      linarith
    linarith [hanti, hrec]

/-- Haversine distances obey the triangle inequality. -/
theorem haversine_triangle (lat1 lng1 lat2 lng2 lat3 lng3 : ℝ) :
    haversine lat1 lng1 lat3 lng3 ≤
      haversine lat1 lng1 lat2 lng2 + haversine lat2 lng2 lat3 lng3 := by
  rw [haversine_eq_arc, haversine_eq_arc, haversine_eq_arc, ← mul_add]
  refine mul_le_mul_of_nonneg_left ?_ (by norm_num [EARTH_RADIUS_KM])
  exact arccos_inner_triangle (norm_sph _ _) (norm_sph _ _) (norm_sph _ _)

/-- Haversine distances are non-negative. -/
theorem haversine_nonneg (lat1 lng1 lat2 lng2 : ℝ) :
    0 ≤ haversine lat1 lng1 lat2 lng2 := by
  rw [haversine_eq_arc]
  exact mul_nonneg (by norm_num [EARTH_RADIUS_KM]) (Real.arccos_nonneg _)

/-! ### The spur remover never lengthens the polyline (C6) -/

theorem coords_distance_km_nonneg : ∀ l : List Pt, 0 ≤ coords_distance_km l
  | [] => le_refl 0
  | [_] => le_refl 0
  | p :: q :: rest => by
    have h1 := coords_distance_km_nonneg (q :: rest)
    have h2 := haversine_nonneg p.2 p.1 q.2 q.1
    rw [coords_distance_km]
    linarith

/-- Jumping straight from `x` to `y` is no longer than walking through the
intermediate points `M`. -/
theorem cdk_shortcut : ∀ (M : List Pt) (x y : Pt) (S : List Pt),
    coords_distance_km (x :: y :: S) ≤ coords_distance_km (x :: (M ++ y :: S))
  | [], x, y, S => le_refl _
  | m :: M, x, y, S => by
    have ih := cdk_shortcut M m y S
    have htri := haversine_triangle x.2 x.1 m.2 m.1 y.2 y.1
    simp only [List.cons_append, List.append_eq, coords_distance_km] at ih ⊢
    linarith

/-- Prepending the same prefix preserves a path-length inequality between
suffixes that begin at the same point. -/
theorem cdk_append_le : ∀ (P : List Pt) {L L' : List Pt}, L.head? = L'.head? →
    coords_distance_km L' ≤ coords_distance_km L →
    coords_distance_km (P ++ L') ≤ coords_distance_km (P ++ L)
  | [], _, _, _, hle => hle
  | [p], L, L', hh, hle => by
    cases L with
    | nil =>
      cases L' with
      | nil => exact le_refl _
      | cons a' t' => simp at hh
    | cons a t =>
      cases L' with
      | nil => simp at hh
      | cons a' t' =>
        simp only [List.head?_cons, Option.some.injEq] at hh
        subst hh
        simp only [List.singleton_append, coords_distance_km]
        linarith
  | p :: p' :: P'', L, L', hh, hle => by
    have ih := cdk_append_le (p' :: P'') hh hle
    simp only [List.cons_append, List.append_eq, coords_distance_km] at ih ⊢
    linarith

/-- Splicing out a spur can only shorten the summed haversine length. -/
theorem cdk_cut_le {res : List Pt} {i j : ℕ} (hij : i + 6 ≤ j)
    (hj : j < res.length) :
    coords_distance_km (res.take (i + 1) ++ res.drop j) ≤
      coords_distance_km res := by
  have hi : i < res.length := by omega
  have htake : res.take (i + 1) = res.take i ++ [res[i]] := by
    rw [List.take_succ, List.getElem?_eq_getElem hi]
    rfl
  have hdropj : res.drop j = res[j] :: res.drop (j + 1) :=
    List.drop_eq_getElem_cons hj
  have hdrops : res.drop (i + 1) =
      (res.drop (i + 1)).take (j - (i + 1)) ++ res.drop j := by
    conv_lhs => rw [← List.take_append_drop (j - (i + 1)) (res.drop (i + 1))]
    rw [List.drop_drop]
    congr 2
    omega
  have hres : res = res.take i ++
      (res[i] :: ((res.drop (i + 1)).take (j - (i + 1)) ++
        (res[j] :: res.drop (j + 1)))) := by
    conv_lhs => rw [← List.take_append_drop (i + 1) res, htake, hdrops, hdropj,
      List.append_assoc]
    rw [List.singleton_append]
  have hcut : res.take (i + 1) ++ res.drop j =
      res.take i ++ (res[i] :: (res[j] :: res.drop (j + 1))) := by
    rw [htake, hdropj, List.append_assoc]
    rfl
  rw [hcut]
  conv_rhs => rw [hres]
  exact cdk_append_le _ rfl
    (cdk_shortcut ((res.drop (i + 1)).take (j - (i + 1))) res[i] res[j]
      (res.drop (j + 1)))

/-- The spur-removal loop never lengthens the path. -/
theorem removeSpursLoop_cdk_le {threshold_km : ℝ} :
    ∀ (fuel : ℕ) (res : List Pt),
      coords_distance_km (removeSpursLoop threshold_km fuel res) ≤
        coords_distance_km res := by
  intro fuel
  induction fuel with
  | zero => intro res; exact le_refl _
  | succ n ih =>
    intro res
    rcases h : findCut threshold_km res with _ | ⟨i, j⟩
    · rw [removeSpursLoop, h]
    · rw [removeSpursLoop, h]
      obtain ⟨hij, hj⟩ := findCut_eq_some_bounds h
      exact le_trans (ih _) (cdk_cut_le hij hj)

/-- **C6.** The spur remover is distance-monotone: the summed haversine
length of its output never exceeds that of its input; and an input with
fewer than 20 vertices is returned unchanged. -/
theorem remove_spurs_distance_monotone (coords : List Pt) (threshold_m : ℝ) :
    coords_distance_km (remove_spurs coords threshold_m) ≤
        coords_distance_km coords ∧
      (coords.length < 20 → remove_spurs coords threshold_m = coords) := by
  rw [remove_spurs]
  split
  · exact ⟨le_refl _, fun _ => rfl⟩
  · next hge =>
    exact ⟨removeSpursLoop_cdk_le coords.length coords, fun h => absurd h hge⟩

/-- Witness for C6 at the concrete two-point polyline `[(0,0), (1,1)]`
with the default threshold `30`: the inner implication fires and the list
is returned unchanged. -/
theorem remove_spurs_distance_monotone_witness :
    remove_spurs [((0 : ℝ), (0 : ℝ)), (1, 1)] 30 = [((0 : ℝ), (0 : ℝ)), (1, 1)] ∧
      coords_distance_km (remove_spurs [((0 : ℝ), (0 : ℝ)), (1, 1)] 30) ≤
        coords_distance_km [((0 : ℝ), (0 : ℝ)), (1, 1)] :=
  ⟨(remove_spurs_distance_monotone [((0 : ℝ), (0 : ℝ)), (1, 1)] 30).2 (by simp),
    (remove_spurs_distance_monotone [((0 : ℝ), (0 : ℝ)), (1, 1)] 30).1⟩

/-! ### Elevation service (`app/services/elevation_service.py`)

The OpenTopoData HTTP call is modelled by an oracle from batch number to
response; a network error raised by the HTTP client (which the source does
not catch) is modelled by `Except.error`. -/

/-- `BATCH_SIZE = 100` (OpenTopoData max per request). -/
def BATCH_SIZE : ℕ := 100

/-- Outcome of one DEM batch request: `ok` carries the parsed
`results[*].elevation` values of a 200 response, `httpFail` is a non-200
status, `netFail` is an exception raised by the HTTP client. -/
inductive BatchResp : Type
  | ok (elevations : List (Option ℝ))
  | httpFail
  | netFail

/-- `_batch_elevation_query`: walk the coordinates in chunks of
`BATCH_SIZE`; a 200 response appends its parsed elevations, a non-200
appends one `None` per point of the chunk, and a network error escapes. -/
def batch_elevation_query (oracle : ℕ → BatchResp) :
    List Pt → Except Unit (List (Option ℝ))
  | [] => Except.ok []
  | p :: rest =>
    match oracle 0 with
    | BatchResp.netFail => Except.error ()
    | BatchResp.ok es =>
      (batch_elevation_query (fun i => oracle (i + 1))
        ((p :: rest).drop BATCH_SIZE)).map (fun tail => es ++ tail)
    | BatchResp.httpFail =>
      (batch_elevation_query (fun i => oracle (i + 1))
        ((p :: rest).drop BATCH_SIZE)).map
        (fun tail => List.replicate ((p :: rest).take BATCH_SIZE).length
          (none : Option ℝ) ++ tail)
  termination_by l => l.length
  decreasing_by simp [BATCH_SIZE]; omega

/-- One entry of the elevation profile
(`{distance_km, elevation, lat, lng}`). -/
structure Sample where
  distance_km : ℝ
  elevation : Option ℝ
  lat : ℝ
  lng : ℝ

/-- Python `round` to an integer: banker's rounding (round-half-even),
idealized over the reals. -/
def roundHalfEven (x : ℝ) : ℤ :=
  if x - ⌊x⌋ < 1 / 2 then ⌊x⌋
  else if 1 / 2 < x - ⌊x⌋ then ⌊x⌋ + 1
  else if Even ⌊x⌋ then ⌊x⌋ else ⌊x⌋ + 1

/-- Python `round(x, ndigits)` for non-negative `ndigits`. -/
def pyRound (ndigits : ℕ) (x : ℝ) : ℝ :=
  (roundHalfEven (x * 10 ^ ndigits) : ℝ) / 10 ^ ndigits

/-- `_haversine_simple` in `elevation_service.py`; its body is textually
the same formula as `geo.haversine` with `R = 6371`. -/
def haversine_simple (lat1 lng1 lat2 lng2 : ℝ) : ℝ :=
  haversine lat1 lng1 lat2 lng2

/-- The profile-assembly loop of `get_elevation_profile` after the first
point: carries the previous coordinate and the unrounded cumulative
distance. -/
def profileSamplesAux (prev : Pt) (cumulative_km : ℝ) :
    List (Pt × Option ℝ) → List Sample
  | [] => []
  | (coord, elev) :: rest =>
    let c := cumulative_km + haversine_simple prev.2 prev.1 coord.2 coord.1
    { distance_km := pyRound 3 c, elevation := elev,
      lat := coord.2, lng := coord.1 } :: profileSamplesAux coord c rest

/-- The profile-assembly loop of `get_elevation_profile` (`for i, (coord,
elev) in enumerate(zip(sampled, elevations))`). -/
def profileSamples : List (Pt × Option ℝ) → List Sample
  | [] => []
  | (coord, elev) :: rest =>
    { distance_km := pyRound 3 0, elevation := elev,
      lat := coord.2, lng := coord.1 } :: profileSamplesAux coord 0 rest

/-- `_sample_coords`: uniform stride selection of at most `max_points`
points, always ending with the last vertex.  `int(i * step)` is embedded
as the exact `⌊i·len/max⌋`. -/
def sample_coords (coords : List Pt) (max_points : ℕ) : List Pt :=
  if coords.length ≤ max_points then coords
  else ((List.range (max_points - 1)).map fun i =>
      coords.getD (i * coords.length / max_points) (0, 0)) ++
    [coords.getLastD (0, 0)]

/-- `get_elevation_profile(coordinates)` with the DEM oracle passed in. -/
def get_elevation_profile (coordinates : List Pt) (oracle : ℕ → BatchResp) :
    Except Unit (List Sample) :=
  (batch_elevation_query oracle (sample_coords coordinates 200)).map
    fun elevations =>
      profileSamples ((sample_coords coordinates 200).zip elevations)

/-- Gain/loss contribution of one adjacent pair of profile elevations:
zero whenever either endpoint is unknown. -/
def statsPair (prev curr : Option ℝ) : ℝ × ℝ :=
  match prev, curr with
  | some p, some c => if 0 < c - p then (c - p, 0) else (0, |c - p|)
  | _, _ => (0, 0)

/-- The accumulation loop of `compute_elevation_stats` (unrounded). -/
def rawStats : List (Option ℝ) → ℝ × ℝ
  | [] => (0, 0)
  | [_] => (0, 0)
  | a :: b :: rest =>
    ((statsPair a b).1 + (rawStats (b :: rest)).1,
      (statsPair a b).2 + (rawStats (b :: rest)).2)

/-- `compute_elevation_stats(profile)`: total gain and loss over adjacent
samples with both elevations known, rounded to one decimal. -/
def compute_elevation_stats (profile : List Sample) : ℝ × ℝ :=
  (pyRound 1 (rawStats (profile.map Sample.elevation)).1,
    pyRound 1 (rawStats (profile.map Sample.elevation)).2)

/-- The DEM responds 200 to every queried batch, with exactly one
elevation per queried point, given by the point function `f`. -/
def detOracle (coords : List Pt) (f : Pt → Option ℝ) : ℕ → BatchResp :=
  fun i => BatchResp.ok (((coords.drop (BATCH_SIZE * i)).take BATCH_SIZE).map f)

/-- Every 200 batch response carries exactly one elevation per queried
point of that batch. -/
def OracleFits (oracle : ℕ → BatchResp) (coords : List Pt) : Prop :=
  ∀ k es, BATCH_SIZE * k < coords.length → oracle k = BatchResp.ok es →
    es.length = ((coords.drop (BATCH_SIZE * k)).take BATCH_SIZE).length

/-- No queried batch raises a network error. -/
def OracleNoNet (oracle : ℕ → BatchResp) (coords : List Pt) : Prop :=
  ∀ k, BATCH_SIZE * k < coords.length → oracle k ≠ BatchResp.netFail

/-! ### Rounding lemmas -/

theorem roundHalfEven_le (x : ℝ) : roundHalfEven x ≤ ⌊x⌋ + 1 := by
  unfold roundHalfEven
  split_ifs <;> omega

theorem le_roundHalfEven (x : ℝ) : ⌊x⌋ ≤ roundHalfEven x := by
  unfold roundHalfEven
  split_ifs <;> omega

theorem roundHalfEven_mono {x y : ℝ} (h : x ≤ y) :
    roundHalfEven x ≤ roundHalfEven y := by
  have hf : (⌊x⌋ : ℤ) ≤ ⌊y⌋ := Int.floor_mono h
  rcases eq_or_lt_of_le hf with heq | hlt
  · have hxy : x - ⌊x⌋ ≤ y - ⌊y⌋ := by
      have hc : ((⌊x⌋ : ℤ) : ℝ) = ((⌊y⌋ : ℤ) : ℝ) := by rw [heq]
      linarith
    unfold roundHalfEven
    rw [← heq]
    split_ifs <;> first | omega | linarith
  · have h1 := roundHalfEven_le x
    have h2 := le_roundHalfEven y
    omega

theorem roundHalfEven_zero : roundHalfEven 0 = 0 := by
  unfold roundHalfEven
  norm_num

theorem pyRound_mono (ndigits : ℕ) {x y : ℝ} (h : x ≤ y) :
    pyRound ndigits x ≤ pyRound ndigits y := by
  unfold pyRound
  have hp : (0 : ℝ) < 10 ^ ndigits := by positivity
  have hm : roundHalfEven (x * 10 ^ ndigits) ≤ roundHalfEven (y * 10 ^ ndigits) :=
    roundHalfEven_mono (mul_le_mul_of_nonneg_right h (le_of_lt hp))
  exact (div_le_div_iff_of_pos_right hp).mpr (by exact_mod_cast hm)

theorem pyRound_zero (ndigits : ℕ) : pyRound ndigits 0 = 0 := by
  unfold pyRound
  rw [zero_mul, roundHalfEven_zero]
  norm_num

/-! ### Batch query specification -/

/-- Main specification of `_batch_elevation_query`: when no queried batch
raises a network error and every 200 batch answers one elevation per
point, the query succeeds, returns one entry per input point, and every
non-200 batch's slice of the output is all-`None`. -/
theorem batch_elevation_query_spec :
    ∀ (coords : List Pt) (oracle : ℕ → BatchResp),
      OracleFits oracle coords → OracleNoNet oracle coords →
      ∃ es, batch_elevation_query oracle coords = Except.ok es ∧
        es.length = coords.length ∧
        ∀ k, BATCH_SIZE * k < coords.length → oracle k = BatchResp.httpFail →
          (es.drop (BATCH_SIZE * k)).take
              ((coords.drop (BATCH_SIZE * k)).take BATCH_SIZE).length =
            List.replicate ((coords.drop (BATCH_SIZE * k)).take BATCH_SIZE).length
              (none : Option ℝ)
  | [], oracle, _, _ =>
    ⟨[], by rw [batch_elevation_query], rfl, fun k hk => by simp at hk⟩
  | p :: rest, oracle, hfits, hnet => by
    have h0 : BATCH_SIZE * 0 < (p :: rest).length := by simp [BATCH_SIZE]
    have hfits' : OracleFits (fun i => oracle (i + 1)) ((p :: rest).drop BATCH_SIZE) := by
      intro k es hk hok
      have hlen : ((p :: rest).drop BATCH_SIZE).length =
          (p :: rest).length - BATCH_SIZE := List.length_drop _ _
      have hk' : BATCH_SIZE * (k + 1) < (p :: rest).length := by
        rw [hlen] at hk
        simp only [BATCH_SIZE] at hk ⊢
        omega
      have hres := hfits (k + 1) es hk' hok
      have harith : BATCH_SIZE + BATCH_SIZE * k = BATCH_SIZE * (k + 1) := by
        simp only [BATCH_SIZE]
        omega
      rw [List.drop_drop, harith]
      exact hres
    have hnet' : OracleNoNet (fun i => oracle (i + 1)) ((p :: rest).drop BATCH_SIZE) := by
      intro k hk
      have hlen : ((p :: rest).drop BATCH_SIZE).length =
          (p :: rest).length - BATCH_SIZE := List.length_drop _ _
      have hk' : BATCH_SIZE * (k + 1) < (p :: rest).length := by
        rw [hlen] at hk
        simp only [BATCH_SIZE] at hk ⊢
        omega
      exact hnet (k + 1) hk'
    obtain ⟨es', he', hl', hrep'⟩ :=
      batch_elevation_query_spec ((p :: rest).drop BATCH_SIZE)
        (fun i => oracle (i + 1)) hfits' hnet'
    rcases ho : oracle 0 with es0 | _ | _
    · -- 200 response for the first batch
      have hlen0 : es0.length = ((p :: rest).take BATCH_SIZE).length := by
        have := hfits 0 es0 h0 ho
        simpa using this
      refine ⟨es0 ++ es', ?_, ?_, ?_⟩
      · rw [batch_elevation_query, ho, he']
        rfl
      · simp only [List.length_append, hl', hlen0, List.length_take,
          List.length_drop]
        omega
      · intro k hk hfail
        cases k with
        | zero => rw [hfail] at ho; exact absurd ho (by simp)
        | succ m =>
          have hgt : BATCH_SIZE < (p :: rest).length := by
            simp only [BATCH_SIZE] at hk ⊢
            omega
          have h100 : es0.length = BATCH_SIZE := by
            rw [hlen0, List.length_take]
            omega
          have hdropes : (es0 ++ es').drop (BATCH_SIZE * (m + 1)) =
              es'.drop (BATCH_SIZE * m) := by
            have he : BATCH_SIZE * (m + 1) = es0.length + BATCH_SIZE * m := by
              rw [h100, Nat.mul_succ]
              exact Nat.add_comm _ _
            rw [he, List.drop_append]
          have hdropc : (p :: rest).drop (BATCH_SIZE * (m + 1)) =
              ((p :: rest).drop BATCH_SIZE).drop (BATCH_SIZE * m) := by
            have harith : BATCH_SIZE + BATCH_SIZE * m = BATCH_SIZE * (m + 1) := by
              simp only [BATCH_SIZE]
              omega
            rw [List.drop_drop, harith]
          have hm' : BATCH_SIZE * m < ((p :: rest).drop BATCH_SIZE).length := by
            rw [List.length_drop]
            simp only [BATCH_SIZE] at hk ⊢
            omega
          rw [hdropes, hdropc]
          exact hrep' m hm' hfail
    · -- non-200 response for the first batch
      refine ⟨List.replicate ((p :: rest).take BATCH_SIZE).length none ++ es', ?_, ?_, ?_⟩
      · rw [batch_elevation_query, ho, he']
        rfl
      · simp only [List.length_append, hl', List.length_replicate,
          List.length_take, List.length_drop]
        omega
      · intro k hk hfail
        cases k with
        | zero =>
          simp only [Nat.mul_zero, List.drop_zero]
          exact List.take_left' (by rw [List.length_replicate])
        | succ m =>
          have hgt : BATCH_SIZE < (p :: rest).length := by
            simp only [BATCH_SIZE] at hk ⊢
            omega
          have h100 : (List.replicate ((p :: rest).take BATCH_SIZE).length
              (none : Option ℝ)).length = BATCH_SIZE := by
            rw [List.length_replicate, List.length_take]
            omega
          have hdropes : (List.replicate ((p :: rest).take BATCH_SIZE).length
                (none : Option ℝ) ++ es').drop (BATCH_SIZE * (m + 1)) =
              es'.drop (BATCH_SIZE * m) := by
            have he : BATCH_SIZE * (m + 1) =
                (List.replicate ((p :: rest).take BATCH_SIZE).length
                  (none : Option ℝ)).length + BATCH_SIZE * m := by
              rw [h100, Nat.mul_succ]
              exact Nat.add_comm _ _
            rw [he, List.drop_append]
          have hdropc : (p :: rest).drop (BATCH_SIZE * (m + 1)) =
              ((p :: rest).drop BATCH_SIZE).drop (BATCH_SIZE * m) := by
            have harith : BATCH_SIZE + BATCH_SIZE * m = BATCH_SIZE * (m + 1) := by
              simp only [BATCH_SIZE]
              omega
            rw [List.drop_drop, harith]
          have hm' : BATCH_SIZE * m < ((p :: rest).drop BATCH_SIZE).length := by
            rw [List.length_drop]
            simp only [BATCH_SIZE] at hk ⊢
            omega
          rw [hdropes, hdropc]
          exact hrep' m hm' hfail
    · exact absurd ho (hnet 0 h0)
  termination_by coords => coords.length
  decreasing_by simp [BATCH_SIZE]; omega

/-! ### Elevation profile properties (C7) -/

theorem sample_coords_length (coords : List Pt) :
    (sample_coords coords 200).length = min 200 coords.length := by
  unfold sample_coords
  split
  · next h => omega
  · next h =>
    simp only [List.length_append, List.length_map, List.length_range,
      List.length_cons, List.length_nil]
    omega

theorem profileSamplesAux_length :
    ∀ (l : List (Pt × Option ℝ)) (prev : Pt) (c : ℝ),
      (profileSamplesAux prev c l).length = l.length
  | [], _, _ => rfl
  | (coord, e) :: rest, prev, c => by
    simp only [profileSamplesAux, List.length_cons]
    rw [profileSamplesAux_length rest coord _]

theorem profileSamples_length (l : List (Pt × Option ℝ)) :
    (profileSamples l).length = l.length := by
  cases l with
  | nil => rfl
  | cons pe rest =>
    obtain ⟨coord, e⟩ := pe
    simp only [profileSamples, List.length_cons]
    rw [profileSamplesAux_length rest coord 0]

theorem profileSamples_head_distance (l : List (Pt × Option ℝ)) :
    ∀ s, (profileSamples l).head? = some s → s.distance_km = 0 := by
  cases l with
  | nil => intro s hs; simp [profileSamples] at hs
  | cons pe rest =>
    obtain ⟨coord, e⟩ := pe
    intro s hs
    simp only [profileSamples, List.head?_cons, Option.some.injEq] at hs
    rw [← hs, pyRound_zero]

theorem profileSamplesAux_chain :
    ∀ (l : List (Pt × Option ℝ)) (prev : Pt) (c : ℝ),
      List.Chain' (fun s t : Sample => s.distance_km ≤ t.distance_km)
          (profileSamplesAux prev c l) ∧
        ∀ s ∈ profileSamplesAux prev c l, pyRound 3 c ≤ s.distance_km
  | [], _, _ => ⟨List.chain'_nil, by simp [profileSamplesAux]⟩
  | (coord, e) :: rest, prev, c => by
    obtain ⟨ih1, ih2⟩ := profileSamplesAux_chain rest coord
      (c + haversine_simple prev.2 prev.1 coord.2 coord.1)
    have hd : 0 ≤ haversine_simple prev.2 prev.1 coord.2 coord.1 :=
      haversine_nonneg prev.2 prev.1 coord.2 coord.1
    constructor
    · simp only [profileSamplesAux]
      refine List.chain'_cons'.mpr ⟨?_, ih1⟩
      intro t ht
      exact ih2 t (List.mem_of_mem_head? ht)
    · simp only [profileSamplesAux]
      intro s hs
      rcases List.mem_cons.mp hs with rfl | hs'
      · exact pyRound_mono 3 (by linarith)
      · exact le_trans (pyRound_mono 3 (by linarith)) (ih2 s hs')

theorem profileSamples_chain (l : List (Pt × Option ℝ)) :
    List.Chain' (fun s t : Sample => s.distance_km ≤ t.distance_km)
      (profileSamples l) := by
  cases l with
  | nil => exact List.chain'_nil
  | cons pe rest =>
    obtain ⟨coord, e⟩ := pe
    obtain ⟨ih1, ih2⟩ := profileSamplesAux_chain rest coord 0
    simp only [profileSamples]
    refine List.chain'_cons'.mpr ⟨?_, ih1⟩
    intro t ht
    have := ih2 t (List.mem_of_mem_head? ht)
    rw [pyRound_zero] at this
    calc (Sample.mk (pyRound 3 0) e coord.2 coord.1).distance_km
        = 0 := pyRound_zero 3
      _ ≤ t.distance_km := this

/-- **C7.** When every queried DEM batch succeeds with one elevation per
point (and none raises), the profile has exactly `min 200 (number of
vertices)` samples, its first sample is at cumulative distance `0`, and
the cumulative distances are monotonically non-decreasing. -/
theorem get_elevation_profile_spec (coords : List Pt) (oracle : ℕ → BatchResp)
    (hfit : OracleFits oracle (sample_coords coords 200))
    (hnet : OracleNoNet oracle (sample_coords coords 200)) :
    ∃ profile, get_elevation_profile coords oracle = Except.ok profile ∧
      profile.length = min 200 coords.length ∧
      (∀ s, profile.head? = some s → s.distance_km = 0) ∧
      List.Chain' (fun s t : Sample => s.distance_km ≤ t.distance_km) profile := by
  obtain ⟨es, he, hlen, -⟩ :=
    batch_elevation_query_spec (sample_coords coords 200) oracle hfit hnet
  refine ⟨profileSamples ((sample_coords coords 200).zip es), ?_, ?_, ?_, ?_⟩
  · rw [get_elevation_profile, he]
    rfl
  · rw [profileSamples_length, List.length_zip, hlen, Nat.min_self,
      sample_coords_length]
  · exact profileSamples_head_distance _
  · exact profileSamples_chain _

/-- Witness for C7: three points, a single all-200 DEM batch. -/
theorem get_elevation_profile_spec_witness :
    ∃ profile,
      get_elevation_profile [((0 : ℝ), (0 : ℝ)), (1, 1), (2, 2)]
          (fun _ => BatchResp.ok [none, none, none]) = Except.ok profile ∧
        profile.length =
          min 200 ([((0 : ℝ), (0 : ℝ)), (1, 1), (2, 2)] : List Pt).length ∧
        (∀ s, profile.head? = some s → s.distance_km = 0) ∧
        List.Chain' (fun s t : Sample => s.distance_km ≤ t.distance_km) profile := by
  have hs : sample_coords [((0 : ℝ), (0 : ℝ)), (1, 1), (2, 2)] 200 =
      [((0 : ℝ), (0 : ℝ)), (1, 1), (2, 2)] := by
    unfold sample_coords
    rw [if_pos (by simp)]
  refine get_elevation_profile_spec _ _ ?_ ?_
  · intro k es hk hok
    rw [hs] at hk ⊢
    have hk0 : k = 0 := by
      simp only [BATCH_SIZE, List.length_cons, List.length_nil] at hk
      omega
    subst hk0
    injection hok with h
    subst h
    simp [BATCH_SIZE]
  · intro k hk
    simp

/-! ### DEM batch failure behaviour (C2) -/

theorem statsPair_none_left (b : Option ℝ) : statsPair none b = (0, 0) := by
  cases b <;> rfl

theorem statsPair_none_right (a : Option ℝ) : statsPair a none = (0, 0) := by
  cases a <;> rfl

/-- A sample with unknown elevation contributes nothing: it splits the
gain/loss accumulation into the two independent halves around it. -/
theorem rawStats_append_none : ∀ (l1 l2 : List (Option ℝ)),
    rawStats (l1 ++ (none : Option ℝ) :: l2) = rawStats l1 + rawStats l2
  | [], [] => by
    simp [rawStats, Prod.ext_iff]
  | [], b :: r => by
    simp only [List.nil_append, rawStats, statsPair_none_left]
    simp [Prod.ext_iff]
  | [a], l2 => by
    have ih := rawStats_append_none [] l2
    simp only [List.nil_append] at ih
    simp only [List.singleton_append, rawStats, statsPair_none_right, ih]
    simp [rawStats, Prod.ext_iff]
  | a :: b :: t, l2 => by
    have ih := rawStats_append_none (b :: t) l2
    simp only [List.cons_append] at ih ⊢
    rw [rawStats, ih]
    conv_rhs => rw [rawStats]
    simp [Prod.ext_iff]
    constructor <;> ring

/-- **C2** (amended).  A non-200 DEM batch is downgraded: the whole query
still succeeds with one entry per input point and exactly that batch's
slice is all-`None`; and gain/loss ignore `None` samples, an unknown
sample splitting the accumulation into its two sides.  (The network-error
half of the original claim fails, see the counterexample.) -/
theorem batch_fail_null_spec (coords : List Pt) (oracle : ℕ → BatchResp)
    (hfit : OracleFits oracle coords) (hnet : OracleNoNet oracle coords)
    (k : ℕ) (hk : BATCH_SIZE * k < coords.length)
    (hfail : oracle k = BatchResp.httpFail) :
    (∃ es, batch_elevation_query oracle coords = Except.ok es ∧
      es.length = coords.length ∧
      (es.drop (BATCH_SIZE * k)).take
          ((coords.drop (BATCH_SIZE * k)).take BATCH_SIZE).length =
        List.replicate ((coords.drop (BATCH_SIZE * k)).take BATCH_SIZE).length
          (none : Option ℝ)) ∧
    ∀ (pre post : List Sample) (s : Sample), s.elevation = none →
      compute_elevation_stats (pre ++ s :: post) =
        (pyRound 1 ((rawStats (pre.map Sample.elevation)).1 +
            (rawStats (post.map Sample.elevation)).1),
          pyRound 1 ((rawStats (pre.map Sample.elevation)).2 +
            (rawStats (post.map Sample.elevation)).2)) := by
  constructor
  · obtain ⟨es, he, hlen, hrep⟩ :=
      batch_elevation_query_spec coords oracle hfit hnet
    exact ⟨es, he, hlen, hrep k hk hfail⟩
  · intro pre post s hnone
    unfold compute_elevation_stats
    rw [List.map_append, List.map_cons, hnone, rawStats_append_none]
    rfl

/-- Witness for C2 (amended) at two points whose single batch returns a
non-200 status. -/
theorem batch_fail_null_spec_witness :
    (∃ es, batch_elevation_query (fun _ => BatchResp.httpFail)
          [((0 : ℝ), (0 : ℝ)), (1, 1)] = Except.ok es ∧
      es.length = ([((0 : ℝ), (0 : ℝ)), (1, 1)] : List Pt).length ∧
      (es.drop (BATCH_SIZE * 0)).take
          ((([((0 : ℝ), (0 : ℝ)), (1, 1)] : List Pt).drop
            (BATCH_SIZE * 0)).take BATCH_SIZE).length =
        List.replicate ((([((0 : ℝ), (0 : ℝ)), (1, 1)] : List Pt).drop
            (BATCH_SIZE * 0)).take BATCH_SIZE).length (none : Option ℝ)) ∧
    ∀ (pre post : List Sample) (s : Sample), s.elevation = none →
      compute_elevation_stats (pre ++ s :: post) =
        (pyRound 1 ((rawStats (pre.map Sample.elevation)).1 +
            (rawStats (post.map Sample.elevation)).1),
          pyRound 1 ((rawStats (pre.map Sample.elevation)).2 +
            (rawStats (post.map Sample.elevation)).2)) := by
  refine batch_fail_null_spec _ _ ?_ ?_ 0 (by simp [BATCH_SIZE]) rfl
  · intro k es hk hok
    exact absurd hok (by simp)
  · intro k hk
    simp

/-- **C2** (counterexample to the stated claim).  A network error in a
DEM batch is not downgraded to nulls: `_batch_elevation_query` has no
handler around the HTTP call, so the exception escapes and no profile is
produced. -/
theorem batch_netfail_escapes :
    get_elevation_profile [((0 : ℝ), (0 : ℝ)), (1, 1)]
      (fun _ => BatchResp.netFail) = Except.error () := by
  unfold get_elevation_profile
  have hs : sample_coords [((0 : ℝ), (0 : ℝ)), (1, 1)] 200 =
      [((0 : ℝ), (0 : ℝ)), (1, 1)] := by
    unfold sample_coords
    rw [if_pos (by simp)]
  rw [hs, batch_elevation_query]
  rfl

/-! ### Reversal of a polyline (C8) -/

/-- `get_elevation_profile` when the DEM behaves as a pure point
function `f`: every batch returns 200 with `f` of each queried point. -/
def get_elevation_profile_det (coordinates : List Pt) (f : Pt → Option ℝ) :
    Except Unit (List Sample) :=
  get_elevation_profile coordinates
    (detOracle (sample_coords coordinates 200) f)

/-- Batch-querying a pointwise DEM yields the pointwise elevations. -/
theorem batch_query_det : ∀ (coords : List Pt) (f : Pt → Option ℝ),
    batch_elevation_query (detOracle coords f) coords =
      Except.ok (coords.map f)
  | [], f => by rw [batch_elevation_query]; rfl
  | p :: rest, f => by
    have hshift : (fun i => detOracle (p :: rest) f (i + 1)) =
        detOracle ((p :: rest).drop BATCH_SIZE) f := by
      funext i
      unfold detOracle
      have harith : BATCH_SIZE + BATCH_SIZE * i = BATCH_SIZE * (i + 1) := by
        simp only [BATCH_SIZE]
        omega
      rw [List.drop_drop, harith]
    have h0 : detOracle (p :: rest) f 0 =
        BatchResp.ok (((p :: rest).take BATCH_SIZE).map f) := by
      unfold detOracle
      rw [Nat.mul_zero, List.drop_zero]
    rw [batch_elevation_query, hshift,
      batch_query_det ((p :: rest).drop BATCH_SIZE) f, h0]
    show Except.ok (((p :: rest).take BATCH_SIZE).map f ++
      ((p :: rest).drop BATCH_SIZE).map f) = _
    rw [← List.map_append, List.take_append_drop]
  termination_by coords => coords.length
  decreasing_by simp [BATCH_SIZE]; omega

theorem get_elevation_profile_det_eq (coords : List Pt) (f : Pt → Option ℝ) :
    get_elevation_profile_det coords f =
      Except.ok (profileSamples ((sample_coords coords 200).zip
        ((sample_coords coords 200).map f))) := by
  unfold get_elevation_profile_det get_elevation_profile
  rw [batch_query_det]
  rfl

theorem zip_map_snd : ∀ (l : List Pt) (f : Pt → Option ℝ),
    (l.zip (l.map f)).map Prod.snd = l.map f
  | [], _ => rfl
  | p :: rest, f => by
    simp only [List.map_cons, List.zip_cons_cons]
    rw [zip_map_snd rest f]

theorem profileSamplesAux_map_elev :
    ∀ (l : List (Pt × Option ℝ)) (prev : Pt) (c : ℝ),
      (profileSamplesAux prev c l).map Sample.elevation = l.map Prod.snd
  | [], _, _ => rfl
  | (coord, e) :: rest, prev, c => by
    simp only [profileSamplesAux, List.map_cons]
    rw [profileSamplesAux_map_elev rest coord _]

theorem profileSamples_map_elev (l : List (Pt × Option ℝ)) :
    (profileSamples l).map Sample.elevation = l.map Prod.snd := by
  cases l with
  | nil => rfl
  | cons pe rest =>
    obtain ⟨coord, e⟩ := pe
    simp only [profileSamples, List.map_cons]
    rw [profileSamplesAux_map_elev rest coord 0]

/-- Reading the `elevation` column of a pointwise-DEM profile gives the
pointwise elevations of the sampled coordinates. -/
theorem profile_det_map_elev (coords : List Pt) (f : Pt → Option ℝ) :
    (profileSamples ((sample_coords coords 200).zip
        ((sample_coords coords 200).map f))).map Sample.elevation =
      (sample_coords coords 200).map f := by
  rw [profileSamples_map_elev, zip_map_snd]

/-- Swapping the direction of one adjacent pair swaps its gain and loss
contributions. -/
theorem statsPair_swap (a b : Option ℝ) :
    statsPair b a = ((statsPair a b).2, (statsPair a b).1) := by
  cases a with
  | none => rw [statsPair_none_left, statsPair_none_right]
  | some x =>
    cases b with
    | none => rw [statsPair_none_left, statsPair_none_right]
    | some y =>
      simp only [statsPair]
      split_ifs with h1 h2 h2
      · exact absurd h1 (by linarith)
      · rw [abs_of_nonpos (by linarith : y - x ≤ 0)]
        simp [Prod.ext_iff]
      · rw [abs_of_nonpos (by linarith : x - y ≤ 0)]
        simp [Prod.ext_iff]
      · have hxy : x = y := by linarith
        subst hxy
        simp [Prod.ext_iff]

/-- Appending one more elevation adds the final pair's contribution. -/
theorem rawStats_append_pair : ∀ (l : List (Option ℝ)) (b a : Option ℝ),
    rawStats (l ++ [b, a]) =
      ((rawStats (l ++ [b])).1 + (statsPair b a).1,
        (rawStats (l ++ [b])).2 + (statsPair b a).2)
  | [], b, a => by
    simp only [List.nil_append]
    simp [rawStats, Prod.ext_iff]
  | [c], b, a => by
    simp only [List.singleton_append]
    simp [rawStats, Prod.ext_iff]
  | c :: d :: t, b, a => by
    have ih := rawStats_append_pair (d :: t) b a
    simp only [List.cons_append] at ih ⊢
    rw [rawStats, ih]
    conv_rhs => rw [rawStats]
    simp only [Prod.ext_iff]
    constructor <;> ring

/-- Reversing the elevation sequence swaps accumulated gain and loss. -/
theorem rawStats_reverse : ∀ l : List (Option ℝ),
    rawStats l.reverse = ((rawStats l).2, (rawStats l).1)
  | [] => rfl
  | [a] => rfl
  | a :: b :: t => by
    have ih := rawStats_reverse (b :: t)
    have hrev2 : (b :: t).reverse = t.reverse ++ [b] := by
      simp [List.reverse_cons]
    have hr3 : (a :: b :: t).reverse = t.reverse ++ [b, a] := by
      rw [List.reverse_cons, hrev2, List.append_assoc]
      rfl
    rw [hr3, rawStats_append_pair, ← hrev2, ih, statsPair_swap]
    conv_rhs => rw [rawStats]
    simp only [Prod.ext_iff]
    constructor <;> ring

/-- Haversine is symmetric in its two endpoints. -/
theorem haversine_symm (lat1 lng1 lat2 lng2 : ℝ) :
    haversine lat1 lng1 lat2 lng2 = haversine lat2 lng2 lat1 lng1 := by
  rw [haversine_eq_arc, haversine_eq_arc, real_inner_comm]

theorem cdk_append_pair : ∀ (l : List Pt) (q p : Pt),
    coords_distance_km (l ++ [q, p]) =
      coords_distance_km (l ++ [q]) + haversine q.2 q.1 p.2 p.1
  | [], q, p => by
    simp only [List.nil_append]
    simp [coords_distance_km]
  | [c], q, p => by
    simp only [List.singleton_append]
    simp [coords_distance_km]
  | c :: d :: t, q, p => by
    have ih := cdk_append_pair (d :: t) q p
    simp only [List.cons_append] at ih ⊢
    rw [coords_distance_km, ih]
    conv_rhs => rw [coords_distance_km]
    ring

/-- Reversal preserves the summed haversine length of a polyline. -/
theorem coords_distance_km_reverse : ∀ l : List Pt,
    coords_distance_km l.reverse = coords_distance_km l
  | [] => rfl
  | [a] => rfl
  | a :: b :: t => by
    have ih := coords_distance_km_reverse (b :: t)
    have hrev2 : (b :: t).reverse = t.reverse ++ [b] := by
      simp [List.reverse_cons]
    have hr3 : (a :: b :: t).reverse = t.reverse ++ [b, a] := by
      rw [List.reverse_cons, hrev2, List.append_assoc]
      rfl
    rw [hr3, cdk_append_pair, ← hrev2, ih, haversine_symm]
    conv_rhs => rw [coords_distance_km]
    ring

theorem roundHalfEven_intCast (z : ℤ) : roundHalfEven ((z : ℝ)) = z := by
  unfold roundHalfEven
  rw [Int.floor_intCast]
  norm_num

theorem pyRound_intCast (ndigits : ℕ) (z : ℤ) :
    pyRound ndigits ((z : ℝ)) = z := by
  unfold pyRound
  have hc : ((z : ℝ) * 10 ^ ndigits) = (((z * 10 ^ ndigits : ℤ)) : ℝ) := by
    push_cast
    ring
  rw [hc, roundHalfEven_intCast]
  push_cast
  have hne : (10 : ℝ) ^ ndigits ≠ 0 := by positivity
  field_simp

/-- **C8** (amended).  For polylines with at most 200 vertices — where the
downsampler is the identity — building the profile of the reversed
polyline under a pointwise DEM swaps gain and loss; and reversal preserves
the summed haversine length of any polyline.  (For more than 200 vertices
the stride sampler selects different points on the reversed polyline and
the swap fails, see the counterexample.) -/
theorem reverse_swaps_gain_loss (coords : List Pt) (f : Pt → Option ℝ)
    (h : coords.length ≤ 200) :
    (∃ p q, get_elevation_profile_det coords f = Except.ok p ∧
        get_elevation_profile_det coords.reverse f = Except.ok q ∧
        compute_elevation_stats q =
          ((compute_elevation_stats p).2, (compute_elevation_stats p).1)) ∧
      coords_distance_km coords.reverse = coords_distance_km coords := by
  have hs : sample_coords coords 200 = coords := by
    unfold sample_coords
    rw [if_pos h]
  have hsr : sample_coords coords.reverse 200 = coords.reverse := by
    unfold sample_coords
    rw [if_pos (by rw [List.length_reverse]; exact h)]
  refine ⟨⟨_, _, get_elevation_profile_det_eq _ f,
    get_elevation_profile_det_eq _ f, ?_⟩, coords_distance_km_reverse coords⟩
  unfold compute_elevation_stats
  rw [profile_det_map_elev, profile_det_map_elev, hs, hsr, List.map_reverse,
    rawStats_reverse]

/-- Witness for C8 (amended) on a two-point polyline with constant
elevation `5`. -/
theorem reverse_swaps_gain_loss_witness :
    (∃ p q, get_elevation_profile_det [((0 : ℝ), (0 : ℝ)), (1, 1)]
          (fun _ => some 5) = Except.ok p ∧
        get_elevation_profile_det ([((0 : ℝ), (0 : ℝ)), (1, 1)] : List Pt).reverse
          (fun _ => some 5) = Except.ok q ∧
        compute_elevation_stats q =
          ((compute_elevation_stats p).2, (compute_elevation_stats p).1)) ∧
      coords_distance_km ([((0 : ℝ), (0 : ℝ)), (1, 1)] : List Pt).reverse =
        coords_distance_km [((0 : ℝ), (0 : ℝ)), (1, 1)] :=
  reverse_swaps_gain_loss [((0 : ℝ), (0 : ℝ)), (1, 1)] (fun _ => some 5)
    (by simp)

/-! #### A 201-vertex polyline on which the reversal claim fails

With 201 vertices the stride sampler keeps indices `0..198` and `200`,
skipping index `199`; on the reversed polyline it keeps (in original
numbering) `200, 199, …, 2` and `0`, skipping index `1`.  A DEM that is
flat except at vertex `199` therefore yields gain `0` forward but gain
`100` reversed. -/

/-- 201 vertices along the equator: vertex `k` at `[k, 0]`. -/
def revCounterPoly : List Pt :=
  (List.range 201).map (fun k : ℕ => ((k : ℝ), (0 : ℝ)))

/-- Flat DEM with a single 100 m spike at longitude 199. -/
def revCounterElev : Pt → Option ℝ :=
  fun p => if p.1 = (199 : ℝ) then some 100 else some 0

theorem revCounterPoly_length : revCounterPoly.length = 201 := by
  unfold revCounterPoly
  rw [List.length_map, List.length_range]

theorem sampleIdx_eq (i : ℕ) (hi : i < 199) : i * 201 / 200 = i := by
  have h1 : i * 201 = i + i * 200 := by ring
  rw [h1, Nat.add_mul_div_right _ _ (by norm_num : 0 < 200),
    Nat.div_eq_of_lt (by omega)]
  omega

theorem revCounterPoly_getD (i : ℕ) (hi : i < 201) :
    revCounterPoly.getD i ((0 : ℝ), (0 : ℝ)) = ((i : ℝ), 0) := by
  unfold revCounterPoly
  rw [List.getD_eq_getElem _ _ (by rw [List.length_map, List.length_range]; exact hi)]
  simp only [List.getElem_map, List.getElem_range]

theorem revCounterPoly_rev_getD (i : ℕ) (hi : i < 201) :
    revCounterPoly.reverse.getD i ((0 : ℝ), (0 : ℝ)) =
      (((200 - i : ℕ) : ℝ), 0) := by
  have hlen : i < revCounterPoly.reverse.length := by
    rw [List.length_reverse, revCounterPoly_length]
    exact hi
  rw [List.getD_eq_getElem _ _ hlen, List.getElem_reverse]
  unfold revCounterPoly
  simp only [List.getElem_map, List.getElem_range, List.length_map,
    List.length_range]

set_option maxRecDepth 10000 in
theorem sample_fwd : sample_coords revCounterPoly 200 =
    (List.range 199).map (fun i : ℕ => ((i : ℝ), (0 : ℝ))) ++ [((200 : ℝ), 0)] := by
  unfold sample_coords
  rw [if_neg (by rw [revCounterPoly_length]; omega)]
  congr 1

set_option maxRecDepth 10000 in
theorem sample_rev : sample_coords revCounterPoly.reverse 200 =
    (List.range 199).map (fun i : ℕ => (((200 - i : ℕ) : ℝ), (0 : ℝ))) ++
      [((0 : ℝ), 0)] := by
  unfold sample_coords
  rw [if_neg (by rw [List.length_reverse, revCounterPoly_length]; omega)]
  congr 1
  rw [List.getLastD_eq_getLast?, List.getLast?_reverse]
  unfold revCounterPoly
  rw [List.range_succ_eq_map]
  simp

theorem sample_fwd_map :
    (sample_coords revCounterPoly 200).map revCounterElev =
      List.replicate 200 (some (0 : ℝ)) := by
  rw [sample_fwd, List.map_append, List.map_map]
  have h1 : (List.range 199).map
      (revCounterElev ∘ fun i : ℕ => ((i : ℝ), (0 : ℝ))) =
      List.replicate 199 (some (0 : ℝ)) := by
    have hc : ∀ i ∈ List.range 199,
        (revCounterElev ∘ fun i : ℕ => ((i : ℝ), (0 : ℝ))) i = some (0 : ℝ) := by
      intro i hi
      rw [List.mem_range] at hi
      simp only [Function.comp, revCounterElev]
      rw [if_neg]
      intro hc
      have : i = 199 := by exact_mod_cast hc
      omega
    rw [List.map_congr_left hc, List.map_const', List.length_range]
  have h2 : revCounterElev ((200 : ℝ), 0) = some 0 := by
    unfold revCounterElev
    norm_num
  rw [h1, List.map_singleton, h2, ← List.replicate_succ']

set_option maxRecDepth 10000 in
theorem range199_split : List.range 199 = 0 :: 1 :: List.range' 2 197 := by
  decide

theorem sample_rev_map :
    (sample_coords revCounterPoly.reverse 200).map revCounterElev =
      some (0 : ℝ) :: some 100 :: List.replicate 198 (some (0 : ℝ)) := by
  rw [sample_rev, List.map_append, List.map_map]
  have hr : List.range 199 = 0 :: 1 :: List.range' 2 197 := range199_split
  rw [hr]
  simp only [List.map_cons, List.map_nil]
  have h0 : (revCounterElev ∘ fun i : ℕ => (((200 - i : ℕ) : ℝ), (0 : ℝ))) 0 =
      some (0 : ℝ) := by
    simp only [Function.comp, revCounterElev]
    norm_num
  have h1 : (revCounterElev ∘ fun i : ℕ => (((200 - i : ℕ) : ℝ), (0 : ℝ))) 1 =
      some (100 : ℝ) := by
    simp only [Function.comp, revCounterElev]
    norm_num
  have h2 : (List.range' 2 197).map
      (revCounterElev ∘ fun i : ℕ => (((200 - i : ℕ) : ℝ), (0 : ℝ))) =
      List.replicate 197 (some (0 : ℝ)) := by
    have hc : ∀ i ∈ List.range' 2 197,
        (revCounterElev ∘ fun i : ℕ => (((200 - i : ℕ) : ℝ), (0 : ℝ))) i =
          some (0 : ℝ) := by
      intro i hi
      rw [List.mem_range'_1] at hi
      simp only [Function.comp, revCounterElev]
      rw [if_neg]
      intro hcast
      have h199 : (200 - i : ℕ) = 199 := by exact_mod_cast hcast
      omega
    rw [List.map_congr_left hc, List.map_const', List.length_range']
  have hlast : revCounterElev ((0 : ℝ), 0) = some 0 := by
    unfold revCounterElev
    norm_num
  rw [h0, h1, h2, hlast, List.cons_append, List.cons_append,
    ← List.replicate_succ']

theorem rawStats_replicate : ∀ (n : ℕ) (c : ℝ),
    rawStats (List.replicate n (some c)) = (0, 0)
  | 0, _ => rfl
  | 1, _ => rfl
  | n + 2, c => by
    have ih := rawStats_replicate (n + 1) c
    have hsplit : List.replicate (n + 2) (some c) =
        some c :: some c :: List.replicate n (some c) := by
      simp [List.replicate_succ]
    have hjoin : some c :: List.replicate n (some c) =
        List.replicate (n + 1) (some c) := by
      simp [List.replicate_succ]
    rw [hsplit, rawStats, hjoin, ih]
    simp [statsPair, Prod.ext_iff]

theorem stats_fwd_eval :
    compute_elevation_stats (profileSamples
      ((sample_coords revCounterPoly 200).zip
        ((sample_coords revCounterPoly 200).map revCounterElev))) = (0, 0) := by
  unfold compute_elevation_stats
  rw [profile_det_map_elev, sample_fwd_map, rawStats_replicate]
  simp [pyRound_zero, Prod.ext_iff]

theorem stats_rev_eval :
    compute_elevation_stats (profileSamples
      ((sample_coords revCounterPoly.reverse 200).zip
        ((sample_coords revCounterPoly.reverse 200).map revCounterElev))) =
      (100, 100) := by
  unfold compute_elevation_stats
  rw [profile_det_map_elev, sample_rev_map]
  have hrep : some (0 : ℝ) :: List.replicate 197 (some (0 : ℝ)) =
      List.replicate 198 (some (0 : ℝ)) := rfl
  have hsplit : List.replicate 198 (some (0 : ℝ)) =
      some 0 :: List.replicate 197 (some (0 : ℝ)) := rfl
  rw [hsplit, rawStats, rawStats, hrep, rawStats_replicate]
  have hg : statsPair (some (0 : ℝ)) (some 100) = (100, 0) := by
    simp [statsPair, Prod.ext_iff]
  have hl : statsPair (some (100 : ℝ)) (some 0) = (0, 100) := by
    simp [statsPair, Prod.ext_iff]
  rw [hg, hl]
  have h100 : pyRound 1 ((100 : ℝ)) = 100 := by
    have hc : ((100 : ℤ) : ℝ) = (100 : ℝ) := by norm_num
    rw [← hc, pyRound_intCast]
  simp only [Prod.ext_iff]
  norm_num [h100]

/-- **C8** (counterexample to the stated claim).  On the 201-vertex
polyline the stride sampler keeps vertex `199` only in the reversed
direction, so with the spike DEM the forward profile has gain `0` and
loss `0` while the reversed profile has gain `100` and loss `100` — not a
swap of the forward values. -/
theorem reverse_swap_fails_over_200 :
    ∃ p q, get_elevation_profile_det revCounterPoly revCounterElev =
        Except.ok p ∧
      get_elevation_profile_det revCounterPoly.reverse revCounterElev =
        Except.ok q ∧
      compute_elevation_stats p = (0, 0) ∧
      compute_elevation_stats q = (100, 100) ∧
      ¬ compute_elevation_stats q =
          ((compute_elevation_stats p).2, (compute_elevation_stats p).1) := by
  refine ⟨_, _, get_elevation_profile_det_eq _ _,
    get_elevation_profile_det_eq _ _, stats_fwd_eval, stats_rev_eval, ?_⟩
  rw [stats_fwd_eval, stats_rev_eval]
  simp [Prod.ext_iff]

/-! ### Route generator (`app/services/route_generator.py`) -/

/-- `MAX_ITERATIONS = 6`. -/
def MAX_ITERATIONS : ℕ := 6

/-- `NUM_WAYPOINTS = 6`. -/
def NUM_WAYPOINTS : ℕ := 6

/-- `NUM_SCOUT_BEARINGS = 12` (sample elevation every 30°). -/
def NUM_SCOUT_BEARINGS : ℕ := 12

/-- Python truthiness of the optional float `elevation_target`:
`None` and `0.0` are falsy. -/
def pytruthy (x : Option ℝ) : Prop := ∃ v, x = some v ∧ v ≠ 0

/-- The initial circumradius of `_generate_loop`
(`distance_km / (2 * NUM_WAYPOINTS * sin(pi / NUM_WAYPOINTS))`). -/
def initial_radius (distance_km : ℝ) : ℝ :=
  distance_km / (2 * (NUM_WAYPOINTS : ℝ) * Real.sin (π / (NUM_WAYPOINTS : ℝ)))

/-- The initial elongation of `_generate_loop`:
`1 + min(elevation_target / 1000, 3)` when `elevation_target` is truthy
and an uphill bearing is known, else `1`. -/
def initial_elongation (elevation_target uphill_bearing : Option ℝ) : ℝ :=
  @ite _ (pytruthy elevation_target ∧ uphill_bearing ≠ none)
    (Classical.propDecidable _)
    (1 + min (elevation_target.getD 0 / 1000) 3) 1

/-- **C9.** The initial loop circumradius equals `distance/6` (since
`sin(π/6) = 1/2`), and the initial elongation is `1 + min(target/1000, 3)`
when both an elevation target and an uphill bearing are set — `1.8` for a
target of `800` — and `1` otherwise. -/
theorem initial_loop_params (d t b : ℝ) (ht : t ≠ 0) :
    initial_radius d = d / 6 ∧
    initial_elongation (some t) (some b) = 1 + min (t / 1000) 3 ∧
    initial_elongation (some 800) (some b) = 1.8 ∧
    initial_elongation none (some b) = 1 ∧
    (∀ t', initial_elongation t' none = 1) ∧
    initial_elongation (some 0) (some b) = 1 := by
  refine ⟨?_, ?_, ?_, ?_, ?_, ?_⟩
  · unfold initial_radius NUM_WAYPOINTS
    rw [Nat.cast_ofNat, Real.sin_pi_div_six]
    norm_num
  · unfold initial_elongation
    rw [if_pos ⟨⟨t, rfl, ht⟩, by simp⟩]
    rfl
  · unfold initial_elongation
    rw [if_pos ⟨⟨800, rfl, by norm_num⟩, by simp⟩]
    norm_num [min_eq_left]
  · unfold initial_elongation
    rw [if_neg]
    rintro ⟨⟨v, hv, -⟩, -⟩
    exact Option.noConfusion hv
  · intro t'
    unfold initial_elongation
    rw [if_neg]
    rintro ⟨-, hb⟩
    exact hb rfl
  · unfold initial_elongation
    rw [if_neg]
    rintro ⟨⟨v, hv, hv0⟩, -⟩
    exact hv0 (Option.some_injective _ hv.symm)

/-- Witness for C9 at `d = 12`, `t = 5`, `b = 0`. -/
theorem initial_loop_params_witness :
    initial_radius 12 = 12 / 6 ∧
    initial_elongation (some 5) (some 0) = 1 + min ((5 : ℝ) / 1000) 3 ∧
    initial_elongation (some 800) (some 0) = 1.8 ∧
    initial_elongation none (some 0) = 1 ∧
    (∀ t', initial_elongation t' none = 1) ∧
    initial_elongation (some 0) (some 0) = 1 :=
  initial_loop_params 12 5 0 (by norm_num)

/-! ### Waypoint plans (C3) -/

/-- `_snap_toward_trail`: interpolate a waypoint toward the nearest trail
attractor (first strict minimum wins, like the Python scan starting from
`inf`), unless it is farther than `max_dist_km`. -/
def snap_toward_trail (wp_lat wp_lng : ℝ) (trail_attractors : List (ℝ × ℝ))
    (strength max_dist_km : ℝ) : ℝ × ℝ :=
  match trail_attractors with
  | [] => (wp_lat, wp_lng)
  | _ :: _ =>
    let nearest := trail_attractors.foldl
      (fun (st : Option (ℝ × (ℝ × ℝ))) a =>
        let d := haversine wp_lat wp_lng a.1 a.2
        match st with
        | none => some (d, a)
        | some (nd, na) =>
          @ite _ (d < nd) (Classical.propDecidable _) (some (d, a)) (some (nd, na)))
      none
    match nearest with
    | none => (wp_lat, wp_lng)
    | some (nd, na) =>
      @ite _ (max_dist_km < nd) (Classical.propDecidable _) (wp_lat, wp_lng)
        (wp_lat + strength * (na.1 - wp_lat), wp_lng + strength * (na.2 - wp_lng))

/-- `_compute_loop_waypoints`: the start point, `NUM_WAYPOINTS` fanned
waypoints (pushed outward toward the uphill bearing when elongation is
active, snapped toward trails when attractors exist), and the start point
again to close the loop. -/
def compute_loop_waypoints (lat lng radius_km base_angle elongation : ℝ)
    (uphill_bearing : Option ℝ) (trail_attractors : List (ℝ × ℝ)) :
    List (ℝ × ℝ) :=
  (lat, lng) :: (((List.range NUM_WAYPOINTS).map (fun i : ℕ =>
    let angle := base_angle + (i : ℝ) * (360 / (NUM_WAYPOINTS : ℝ))
    let wp_radius :=
      @ite _ (elongation ≠ 1 ∧ uphill_bearing ≠ none) (Classical.propDecidable _)
        (radius_km * (1 + (elongation - 1) *
          max 0 (Real.cos (radians (angle - uphill_bearing.getD 0)))))
        radius_km
    let wp := destination_point lat lng angle wp_radius
    @ite _ (trail_attractors ≠ []) (Classical.propDecidable _)
      (snap_toward_trail wp.1 wp.2 trail_attractors 0.4 radius_km) wp)) ++
    [(lat, lng)])

/-- The per-iteration `WaypointPlan` of `_generate_out_and_back`:
`[(lat, lng), turnaround, (lat, lng)]`, with the turnaround placed by
forward geodesic and optionally snapped toward the nearest attractor. -/
def out_and_back_waypoints (lat lng bearing_deg target_straight : ℝ)
    (trail_attractors : List (ℝ × ℝ)) : List (ℝ × ℝ) :=
  let wp0 := destination_point lat lng bearing_deg target_straight
  let wp := @ite _ (trail_attractors ≠ []) (Classical.propDecidable _)
    (snap_toward_trail wp0.1 wp0.2 trail_attractors 0.5 2) wp0
  [(lat, lng), wp, (lat, lng)]

/-- **C3** (counterexample to the stated claim).  An out-and-back
WaypointPlan also starts and ends at the start point: its first and last
GeoPoints are equal, not different. -/
theorem out_and_back_plan_closed_counterexample :
    (out_and_back_waypoints 1 2 3 4 []).head? = some (1, 2) ∧
    (out_and_back_waypoints 1 2 3 4 []).getLast? = some (1, 2) := by
  unfold out_and_back_waypoints
  exact ⟨rfl, rfl⟩

/-- **C3** (amended).  Every WaypointPlan handed to the routing service —
for a loop and for an out-and-back alike — begins and ends at the start
point, so first = last for both shapes. -/
theorem waypoint_plans_closed (lat lng radius_km base_angle elongation
      bearing_deg target_straight : ℝ) (uphill_bearing : Option ℝ)
    (trail_attractors : List (ℝ × ℝ)) :
    (compute_loop_waypoints lat lng radius_km base_angle elongation
        uphill_bearing trail_attractors).head? = some (lat, lng) ∧
    (compute_loop_waypoints lat lng radius_km base_angle elongation
        uphill_bearing trail_attractors).getLast? = some (lat, lng) ∧
    (out_and_back_waypoints lat lng bearing_deg target_straight
        trail_attractors).head? = some (lat, lng) ∧
    (out_and_back_waypoints lat lng bearing_deg target_straight
        trail_attractors).getLast? = some (lat, lng) := by
  refine ⟨rfl, ?_, rfl, rfl⟩
  unfold compute_loop_waypoints
  rw [← List.cons_append, List.getLast?_append_of_ne_nil _ (by simp)]
  rfl

/-! ### Bearing scout (C1) -/

/-- `_trail_density_in_cone`: attractors within `radius_km` whose bearing
from the start is within `half_angle` of the candidate bearing, counted,
divided by 10 and clamped to `[0, 1]`; `0` for an empty bag. -/
def trail_density_in_cone (lat lng bearing_deg radius_km : ℝ)
    (trail_attractors : List (ℝ × ℝ)) (half_angle : ℝ) : ℝ :=
  match trail_attractors with
  | [] => 0
  | _ :: _ =>
    let count := trail_attractors.countP (fun a =>
      @decide (haversine lat lng a.1 a.2 ≤ radius_km ∧
        (let b := geo_bearing lat lng a.1 a.2
         let diff := |b - bearing_deg|
         (if 180 < diff then 360 - diff else diff) ≤ half_angle))
        (Classical.propDecidable _))
    min ((count : ℝ) / 10) 1

/-- One pass of the scoring loop in `_find_best_bearing`: keep the
candidate when its score strictly exceeds the best so far (which starts
at `-inf`, modelled by `⊥` in `WithBot ℝ`). -/
def scoutStep (lat lng radius_km : ℝ) (trail_attractors : List (ℝ × ℝ))
    (minElev elevRange : ℝ) (st : ℝ × WithBot ℝ) (be : ℝ × Option ℝ) :
    ℝ × WithBot ℝ :=
  let elevScore : ℝ :=
    match be.2 with
    | some e => (e - minElev) / elevRange
    | none => 0
  let trailScore := trail_density_in_cone lat lng be.1 (radius_km * 1.5)
    trail_attractors 15
  let score : ℝ :=
    @ite _ (trail_attractors ≠ []) (Classical.propDecidable _)
      (0.6 * elevScore + 0.4 * trailScore) elevScore
  @ite _ (st.2 < (score : WithBot ℝ)) (Classical.propDecidable _)
    ((be.1, (score : WithBot ℝ)) : ℝ × WithBot ℝ) st

/-- `min(valid_elevs)` with the Python guard: `0` for an empty list. -/
def scoutMinElev (elevations : List (Option ℝ)) : ℝ :=
  match elevations.filterMap id with
  | [] => 0
  | v :: vs => vs.foldl min v

/-- `max(valid_elevs)` with the Python guard: `0` for an empty list. -/
def scoutMaxElev (elevations : List (Option ℝ)) : ℝ :=
  match elevations.filterMap id with
  | [] => 0
  | v :: vs => vs.foldl max v

/-- `elev_range = max - min if max > min else 1.0`. -/
def scoutElevRange (elevations : List (Option ℝ)) : ℝ :=
  @ite _ (scoutMinElev elevations < scoutMaxElev elevations)
    (Classical.propDecidable _)
    (scoutMaxElev elevations - scoutMinElev elevations) 1

/-- `_find_best_bearing`, with the DEM's reply to the twelve scout
coordinates passed in as `elevations` and the `random.uniform(0, 360)`
draw passed in as `randBearing`. -/
def find_best_bearing (lat lng radius_km : ℝ)
    (trail_attractors : List (ℝ × ℝ)) (elevations : List (Option ℝ))
    (randBearing : ℝ) : ℝ :=
  ((((List.range NUM_SCOUT_BEARINGS).map
      (fun i : ℕ => (i : ℝ) * (360 / (NUM_SCOUT_BEARINGS : ℝ)))).zip
    elevations).foldl
      (scoutStep lat lng radius_km trail_attractors
        (scoutMinElev elevations) (scoutElevRange elevations))
      (randBearing, (⊥ : WithBot ℝ))).1

/-- With no attractors and an all-null pair list, the scoring loop never
moves off a state whose best score is already `0`. -/
theorem scoutStep_foldl_frozen (lat lng radius_km minElev elevRange x : ℝ) :
    ∀ l : List (ℝ × Option ℝ), (∀ pe ∈ l, pe.2 = none) →
      l.foldl (scoutStep lat lng radius_km [] minElev elevRange)
        (x, ((0 : ℝ) : WithBot ℝ)) = (x, ((0 : ℝ) : WithBot ℝ)) := by
  intro l
  induction l with
  | nil => intro _; rfl
  | cons pe rest ih =>
    intro hall
    have hpe : pe.2 = none := hall pe (List.mem_cons_self pe rest)
    rw [List.foldl_cons]
    have hstep : scoutStep lat lng radius_km [] minElev elevRange
        (x, ((0 : ℝ) : WithBot ℝ)) pe = (x, ((0 : ℝ) : WithBot ℝ)) := by
      unfold scoutStep
      rw [hpe]
      dsimp only
      rw [if_neg (by simp : ¬ ([] : List (ℝ × ℝ)) ≠ [])]
      rw [if_neg (lt_irrefl _)]
    rw [hstep]
    exact ih (fun q hq => hall q (List.mem_cons_of_mem pe hq))

/-- Core behaviour behind C1: when every elevation is null and the
attractor bag is empty, every candidate scores `0`, which already beats
the `-inf` start at the first candidate, so the scout deterministically
returns bearing `0` — the random fallback is dead. -/
theorem find_best_bearing_all_none (lat lng radius_km randBearing : ℝ)
    (elevations : List (Option ℝ))
    (hlen : elevations.length = NUM_SCOUT_BEARINGS)
    (hall : ∀ e ∈ elevations, e = none) :
    find_best_bearing lat lng radius_km [] elevations randBearing = 0 := by
  obtain ⟨e0, erest, rfl⟩ : ∃ e0 erest, elevations = e0 :: erest := by
    cases elevations with
    | nil => simp [NUM_SCOUT_BEARINGS] at hlen
    | cons a l => exact ⟨a, l, rfl⟩
  have he0 : e0 = none := hall e0 (List.mem_cons_self e0 erest)
  subst he0
  have hfirst : ∀ minE elevR b : ℝ,
      scoutStep lat lng radius_km [] minE elevR
        (randBearing, (⊥ : WithBot ℝ)) (b, none) =
        (b, ((0 : ℝ) : WithBot ℝ)) := by
    intro minE elevR b
    unfold scoutStep
    dsimp only
    rw [if_neg (by simp : ¬ ([] : List (ℝ × ℝ)) ≠ [])]
    rw [if_pos]
    exact WithBot.bot_lt_coe 0
  unfold find_best_bearing
  rw [show NUM_SCOUT_BEARINGS = 11 + 1 from rfl, List.range_succ_eq_map,
    List.map_cons, List.zip_cons_cons, List.foldl_cons, hfirst,
    scoutStep_foldl_frozen]
  · norm_num
  · intro pe hpe
    exact hall pe.2 (List.mem_cons_of_mem none (List.of_mem_zip hpe).2)

/-- **C1** (counterexample to the stated claim).  With all twelve
elevations null and no attractors, the scout does not return the random
draw: for random draws `200` and `123` alike it returns the fixed first
candidate bearing `0`. -/
theorem find_best_bearing_not_random :
    find_best_bearing 0 0 1 [] (List.replicate 12 none) 200 = 0 ∧
    find_best_bearing 0 0 1 [] (List.replicate 12 none) 123 = 0 := by
  constructor <;>
    exact find_best_bearing_all_none 0 0 1 _ (List.replicate 12 none) rfl
      (fun e he => List.eq_of_mem_replicate he)

/-- **C1** (amended).  When the elevation query returns null for all
twelve candidate bearings and the attractor bag is empty, every candidate
scores `0`, the first candidate already beats the `-inf` start, and the
scout deterministically returns bearing `0.0` — the uniformly random
fallback initialisation is dead code, regardless of the random draw. -/
theorem scout_all_null_returns_first_bearing (lat lng radius_km
      randBearing : ℝ) (elevations : List (Option ℝ))
    (hlen : elevations.length = NUM_SCOUT_BEARINGS)
    (hall : ∀ e ∈ elevations, e = none) :
    find_best_bearing lat lng radius_km [] elevations randBearing = 0 :=
  find_best_bearing_all_none lat lng radius_km randBearing elevations hlen hall

/-- Witness for C1 (amended) at the all-null DEM reply and random draw
`200`. -/
theorem scout_all_null_returns_first_bearing_witness :
    find_best_bearing 0 0 1 [] (List.replicate 12 none) 200 = 0 :=
  scout_all_null_returns_first_bearing 0 0 1 200 (List.replicate 12 none) rfl
    (fun _ he => List.eq_of_mem_replicate he)

/-! ### Post-processing pipeline of `generate_route` (C4) -/

/-- The final artifact of `generate_route` (the GeoJSON feature's
coordinates and properties plus the attached profile). -/
structure RouteResult where
  coordinates : List Pt
  distance_km : ℝ
  elevation_gain : ℝ
  elevation_loss : ℝ
  profile : List Sample

/-- Lines 60–85 of `generate_route`: take the routed polyline, remove
spurs only when the requested shape is a loop, recompute the distance
from the (possibly cleaned) coordinates, build the elevation profile on
them and assemble the result.  A DEM network error still escapes. -/
def generate_route_post (loop : Bool) (coords : List Pt)
    (oracle : ℕ → BatchResp) : Except Unit RouteResult :=
  let coords2 := if loop then remove_spurs coords 30 else coords
  (get_elevation_profile coords2 oracle).map (fun profile =>
    { coordinates := coords2
      distance_km := pyRound 2 (coords_distance_km coords2)
      elevation_gain := (compute_elevation_stats profile).1
      elevation_loss := (compute_elevation_stats profile).2
      profile := profile })

/-- **C4** (amended).  The spur remover runs only for loop requests: a
loop's distance and profile are computed from the spur-removed polyline,
while an out-and-back request hands the routed polyline through
unchanged. -/
theorem generate_route_post_shapes (coords : List Pt)
    (oracle : ℕ → BatchResp) :
    generate_route_post true coords oracle =
      (get_elevation_profile (remove_spurs coords 30) oracle).map
        (fun profile =>
          { coordinates := remove_spurs coords 30
            distance_km :=
              pyRound 2 (coords_distance_km (remove_spurs coords 30))
            elevation_gain := (compute_elevation_stats profile).1
            elevation_loss := (compute_elevation_stats profile).2
            profile := profile }) ∧
    generate_route_post false coords oracle =
      (get_elevation_profile coords oracle).map
        (fun profile =>
          { coordinates := coords
            distance_km := pyRound 2 (coords_distance_km coords)
            elevation_gain := (compute_elevation_stats profile).1
            elevation_loss := (compute_elevation_stats profile).2
            profile := profile }) :=
  ⟨rfl, rfl⟩

/-! #### A 21-point polyline the spur remover would shorten -/

theorem haversine_self (lat lng : ℝ) : haversine lat lng lat lng = 0 := by
  simp [haversine, radians, Real.sin_zero, Real.sqrt_zero, Real.arcsin_zero]

theorem spurNear_eq_true {th : ℝ} {p q : Pt}
    (h : haversine p.2 p.1 q.2 q.1 < th) : spurNear th p q = true := by
  unfold spurNear
  exact decide_eq_true h

/-- Unfolding lemma for one round of the spur-removal loop. -/
theorem removeSpursLoop_succ (threshold_km : ℝ) (fuel : ℕ) (res : List Pt) :
    removeSpursLoop threshold_km (fuel + 1) res =
      match findCut threshold_km res with
      | none => res
      | some (i, j) =>
        removeSpursLoop threshold_km fuel (res.take (i + 1) ++ res.drop j) := rfl

/-- On 21 coincident points the first scan cuts from index 0 to 6. -/
theorem findCut_replicate21 :
    findCut (30 / 1000) (List.replicate 21 ((0 : ℝ), (0 : ℝ))) = some (0, 6) := by
  have hz : spurNear ((30 : ℝ) / 1000) ((0 : ℝ), (0 : ℝ)) ((0 : ℝ), (0 : ℝ)) = true :=
    spurNear_eq_true (by rw [haversine_self]; norm_num)
  unfold findCut
  rw [List.length_replicate]
  rw [show List.range (21 - 6) = 0 :: [1, 2, 3, 4, 5, 6, 7, 8, 9, 10, 11, 12, 13, 14]
    from by decide]
  rw [List.findSome?_cons]
  have hrange : List.range' (0 + 6) (min (0 + 21 / 3) 21 - (0 + 6)) = [6] := by
    decide
  have hg0 : (List.replicate 21 ((0 : ℝ), (0 : ℝ))).getD 0 (0, 0) = (0, 0) := rfl
  have hg6 : (List.replicate 21 ((0 : ℝ), (0 : ℝ))).getD 6 (0, 0) = (0, 0) := rfl
  rw [hrange]
  have hfind : List.find? (fun j => spurNear (30 / 1000)
      ((List.replicate 21 ((0 : ℝ), (0 : ℝ))).getD 0 (0, 0))
      ((List.replicate 21 ((0 : ℝ), (0 : ℝ))).getD j (0, 0))) [6] = some 6 := by
    have h6 : spurNear ((30 : ℝ) / 1000)
        ((List.replicate 21 ((0 : ℝ), (0 : ℝ))).getD 0 (0, 0))
        ((List.replicate 21 ((0 : ℝ), (0 : ℝ))).getD 6 (0, 0)) = true := by
      rw [hg0, hg6]
      exact hz
    exact List.find?_cons_of_pos _ h6
  rw [hfind]
  rfl

/-- On 16 coincident points the scan windows are all empty
(`max_spur = 16/3 = 5 < min_spur = 6`), so no cut is found. -/
theorem findCut_replicate16 :
    findCut (30 / 1000) (List.replicate 16 ((0 : ℝ), (0 : ℝ))) = none := rfl

/-- The spur remover shortens the 21-point degenerate polyline to 16
points. -/
theorem remove_spurs_replicate21 :
    remove_spurs (List.replicate 21 ((0 : ℝ), (0 : ℝ))) 30 =
      List.replicate 16 ((0 : ℝ), (0 : ℝ)) := by
  unfold remove_spurs
  rw [if_neg (by rw [List.length_replicate]; omega), List.length_replicate]
  have h21 : removeSpursLoop ((30 : ℝ) / 1000) 21
      (List.replicate 21 ((0 : ℝ), (0 : ℝ))) =
      removeSpursLoop ((30 : ℝ) / 1000) (20 + 1)
        (List.replicate 21 ((0 : ℝ), (0 : ℝ))) := rfl
  rw [h21, removeSpursLoop_succ, findCut_replicate21]
  have hcut : (List.replicate 21 ((0 : ℝ), (0 : ℝ))).take (0 + 1) ++
      (List.replicate 21 ((0 : ℝ), (0 : ℝ))).drop 6 =
      List.replicate 16 ((0 : ℝ), (0 : ℝ)) := rfl
  show removeSpursLoop ((30 : ℝ) / 1000) 20
    ((List.replicate 21 ((0 : ℝ), (0 : ℝ))).take (0 + 1) ++
      (List.replicate 21 ((0 : ℝ), (0 : ℝ))).drop 6) = _
  rw [hcut]
  have h20 : removeSpursLoop ((30 : ℝ) / 1000) 20
      (List.replicate 16 ((0 : ℝ), (0 : ℝ))) =
      removeSpursLoop ((30 : ℝ) / 1000) (19 + 1)
        (List.replicate 16 ((0 : ℝ), (0 : ℝ))) := rfl
  rw [h20, removeSpursLoop_succ, findCut_replicate16]

/-- **C4** (counterexample to the stated claim).  For an out-and-back
request the spur remover is not applied: the 21 coincident points — which
the spur remover would cut down to 16 — reach the result's coordinates
unchanged. -/
theorem spur_remover_skipped_for_out_and_back :
    ∃ r, generate_route_post false (List.replicate 21 ((0 : ℝ), (0 : ℝ)))
        (fun _ => BatchResp.httpFail) = Except.ok r ∧
      r.coordinates = List.replicate 21 ((0 : ℝ), (0 : ℝ)) ∧
      remove_spurs (List.replicate 21 ((0 : ℝ), (0 : ℝ))) 30 ≠
        List.replicate 21 ((0 : ℝ), (0 : ℝ)) := by
  have hbatch : batch_elevation_query (fun _ => BatchResp.httpFail)
      (List.replicate 21 ((0 : ℝ), (0 : ℝ))) =
      Except.ok (List.replicate 21 (none : Option ℝ)) := by
    rw [show List.replicate 21 ((0 : ℝ), (0 : ℝ)) =
      ((0 : ℝ), (0 : ℝ)) :: List.replicate 20 ((0 : ℝ), (0 : ℝ)) from rfl]
    rw [batch_elevation_query]
    rw [show (((0 : ℝ), (0 : ℝ)) ::
      List.replicate 20 ((0 : ℝ), (0 : ℝ))).drop BATCH_SIZE = [] from rfl]
    rw [batch_elevation_query]
    rfl
  have hsample : sample_coords (List.replicate 21 ((0 : ℝ), (0 : ℝ))) 200 =
      List.replicate 21 ((0 : ℝ), (0 : ℝ)) := by
    unfold sample_coords
    rw [if_pos (by rw [List.length_replicate]; omega)]
  have hgep : get_elevation_profile (List.replicate 21 ((0 : ℝ), (0 : ℝ)))
      (fun _ => BatchResp.httpFail) =
      Except.ok (profileSamples ((List.replicate 21 ((0 : ℝ), (0 : ℝ))).zip
        (List.replicate 21 (none : Option ℝ)))) := by
    unfold get_elevation_profile
    rw [hsample, hbatch]
    rfl
  refine ⟨{ coordinates := List.replicate 21 ((0 : ℝ), (0 : ℝ))
            distance_km := pyRound 2
              (coords_distance_km (List.replicate 21 ((0 : ℝ), (0 : ℝ))))
            elevation_gain := (compute_elevation_stats
              (profileSamples ((List.replicate 21 ((0 : ℝ), (0 : ℝ))).zip
                (List.replicate 21 (none : Option ℝ))))).1
            elevation_loss := (compute_elevation_stats
              (profileSamples ((List.replicate 21 ((0 : ℝ), (0 : ℝ))).zip
                (List.replicate 21 (none : Option ℝ))))).2
            profile := profileSamples ((List.replicate 21 ((0 : ℝ), (0 : ℝ))).zip
              (List.replicate 21 (none : Option ℝ))) }, ?_, rfl, ?_⟩
  · unfold generate_route_post
    dsimp only
    rw [if_neg Bool.false_ne_true, hgep]
    rfl
  · rw [remove_spurs_replicate21]
    intro h
    have hlen := congrArg List.length h
    simp at hlen

end TraceMyRide
